import Mathlib

/-!
Verification development for the phenomeny-review ingestion pipeline
(`src/app/api/ingest/route.ts`).

The TypeScript route is shallowly embedded below.  The persistence store
(Supabase tables) is modelled as explicit lists of rows inside a `DB`
record; row order is insertion order, and the `.limit(1).single()` queries
of the source are modelled as `List.find?` over that order.  External
collaborators (the URL parser, the HTTP fetch, the two LLM calls, and the
per-entity summary LLM call) are modelled as oracle fields of a per-request
environment `ReqEnv`; their results are data the handler branches on,
exactly as the source branches on the awaited values.  Timestamps are the
opaque strings produced by `new Date().toISOString()`; the date portion
(`slice(0,10)`) is a second oracle field.  JavaScript string routines are
embedded over `List Char` with the ASCII semantics the source relies on
(whitespace classes, `\w`, `\b`, case mapping).  Floating point confidence
values become `Rat`; the only arithmetic the source performs on them is
clamping with `min`/`max`.
-/

namespace Phenomeny

/-! ## Row types of the persistence store -/

structure Article where
  id : Nat
  title : String
  content : String
  slug : String
  status : String
  publish_at : String
  source_url : Option String
deriving DecidableEq

structure Entity where
  id : Nat
  name : String
  slug : String
  type : String
  parent_id : Option Nat
  summary : Option String
deriving DecidableEq

structure Rel where
  id : Nat
  subject_id : Nat
  object_id : Nat
  predicate : String
  source_url : String
  confidence : Rat
  is_active : Bool
  valid_from : String
  valid_to : Option String
  updated_at : String
deriving DecidableEq

structure TimelinePayload where
  event_type : String
  event_date : String
  title : String
  description : String
deriving DecidableEq

structure ClaimRow where
  id : Nat
  claim_type : String
  subject_id : Nat
  object_id : Option Nat
  predicate : Option String
  structured_payload : Option TimelinePayload
  source_url : String
  confidence : Rat
  revision : Nat
  is_current : Bool
  updated_at : Option String
deriving DecidableEq

structure TimelineRow where
  id : Nat
  entity : Nat
  title : String
  description : String
  event_date : String
  event_type : String
  source_url : String
  confidence : Rat
deriving DecidableEq

structure LogRow where
  source_url : String
  status : String
  processing_time_ms : Nat
  error_message : Option String
deriving DecidableEq

structure DB where
  articles : List Article
  entities : List Entity
  article_entities : List (Nat × Nat)
  rels : List Rel
  claims : List ClaimRow
  timelines : List TimelineRow
  logs : List LogRow
  nextId : Nat
deriving DecidableEq

def emptyDB : DB := ⟨[], [], [], [], [], [], [], 0⟩

/-! ## JavaScript string primitives over `List Char` (ASCII semantics) -/

/-- JS whitespace class `\s`, restricted to the ASCII characters the
source ever meets. -/
def isWs (c : Char) : Bool :=
  c = ' ' || c = '\t' || c = '\n' || c = '\r' || c = '\x0b' || c = '\x0c'

/-- JS word-character class `\w` = `[A-Za-z0-9_]`. -/
def isWordChar (c : Char) : Bool :=
  (Char.isAlpha c) || (Char.isDigit c) || c = '_'

def trimList (l : List Char) : List Char :=
  ((l.dropWhile isWs).reverse.dropWhile isWs).reverse

/-- `String.prototype.trim()`. -/
def trimStr (s : String) : String := String.mk (trimList s.toList)

/-- `String.prototype.toLowerCase()` (ASCII). -/
def lowerStr (s : String) : String := String.mk (s.toList.map Char.toLower)

/-- `replace(/\s+/g, " ")`: every whitespace run becomes one space.
The flag records whether the previous character was whitespace. -/
def collapseWsAux : Bool → List Char → List Char
  | _, [] => []
  | prevWs, c :: rest =>
    if isWs c then
      if prevWs then collapseWsAux true rest
      else ' ' :: collapseWsAux true rest
    else c :: collapseWsAux false rest

def collapseWs (l : List Char) : List Char := collapseWsAux false l

/-- `replace(/\b\w/g, c => c.toUpperCase())`: uppercase every word
character that sits at a word boundary.  The flag records whether the
previous character was a word character. -/
def titleCaseAux : Bool → List Char → List Char
  | _, [] => []
  | prevWord, c :: rest =>
    (if isWordChar c && !prevWord then c.toUpper else c) ::
      titleCaseAux (isWordChar c) rest

/-- `str.includes(pat)` for a literal pattern. -/
def containsSubstr (pat : List Char) : List Char → Bool
  | [] => pat.isEmpty
  | c :: rest => ((c :: rest).take pat.length = pat : Bool) || containsSubstr pat rest

def containsStr (pat s : String) : Bool := containsSubstr pat.toList s.toList

/-- One `\b`-delimited occurrence search for a lowercased keyword inside an
already lowercased character list.  The flag says whether the position at
the head of the list is preceded by a non-word character (or the start). -/
def hasWordOccurAux (w : List Char) : Bool → List Char → Bool
  | _, [] => false
  | bnd, c :: rest =>
    (bnd && ((c :: rest).take w.length = w : Bool) &&
      (match (c :: rest).drop w.length with
       | [] => true
       | d :: _ => !isWordChar d)) ||
    hasWordOccurAux w (!isWordChar c) rest

def hasWordOccur (w : List Char) (l : List Char) : Bool := hasWordOccurAux w true l

/-- `/\b(w1|w2|...)\b/i.test(s)`: the keywords are supplied lowercase. -/
def testWords (words : List String) (s : String) : Bool :=
  words.any fun w => hasWordOccur w.toList (s.toList.map Char.toLower)

/-- Literal global string replacement `replace(pat, sub)` with a nonempty
pattern `p :: ps`, scanning left to right.  The fuel argument starts at
the length of the list; every step strictly shrinks the list, so the
zero-fuel fallback is unreachable. -/
def replaceListF (p : Char) (ps sub : List Char) : Nat → List Char → List Char
  | 0, l => l
  | _, [] => []
  | fuel + 1, c :: rest =>
    if (c :: rest).take (ps.length + 1) = p :: ps then
      sub ++ replaceListF p ps sub fuel (rest.drop ps.length)
    else
      c :: replaceListF p ps sub fuel rest

def replaceList (p : Char) (ps sub : List Char) (l : List Char) : List Char :=
  replaceListF p ps sub l.length l

/-- Helper for lazy block removal: drop everything through the first
case-insensitive occurrence of `close`; `none` when it never occurs. -/
def dropThroughClose (close : List Char) : List Char → Option (List Char)
  | [] => none
  | c :: rest =>
    if ((c :: rest).take close.length).map Char.toLower = close then
      some ((c :: rest).drop close.length)
    else
      dropThroughClose close rest

/-- `replace(/<tag[\s\S]*?<\/tag>/gi, "")`: remove every lazily matched
block from `<tag` through the nearest following `</tag>`, case-insensitively.
`tag` is supplied lowercase.  The fuel argument starts at the length of
the list; every step strictly shrinks the list. -/
def removeTagBlocksF (tag : List Char) : Nat → List Char → List Char
  | 0, l => l
  | _, [] => []
  | fuel + 1, c :: rest =>
    if ((c :: rest).take (tag.length + 1)).map Char.toLower = '<' :: tag then
      match dropThroughClose ('<' :: '/' :: tag ++ ['>']) (rest.drop tag.length) with
      | some rest2 => removeTagBlocksF tag fuel rest2
      | none => c :: removeTagBlocksF tag fuel rest
    else c :: removeTagBlocksF tag fuel rest

def removeTagBlocks (tag : List Char) (l : List Char) : List Char :=
  removeTagBlocksF tag l.length l

/-- Scan for the closing `>` of a tag body that already has at least one
non-`>` character; returns the characters after the `>`. -/
def tagRestAux : List Char → Option (List Char)
  | [] => none
  | d :: rest => if d = '>' then some rest else tagRestAux rest

/-- Match `[^>]+>` at the head of the list (the part of `<[^>]+>` after the
opening `<`); returns the characters after the closing `>`. -/
def tagRest : List Char → Option (List Char)
  | [] => none
  | d :: rest => if d = '>' then none else tagRestAux rest

/-- `replace(/<[^>]+>/g, " ")`: replace every `<`, one-or-more non-`>`
characters, `>` span with a single space.  The fuel argument starts at
the length of the list; every step strictly shrinks the list. -/
def stripAllTagsF : Nat → List Char → List Char
  | 0, l => l
  | _, [] => []
  | fuel + 1, c :: rest =>
    if c = '<' then
      match tagRest rest with
      | some after2 => ' ' :: stripAllTagsF fuel after2
      | none => c :: stripAllTagsF fuel rest
    else c :: stripAllTagsF fuel rest

def stripAllTags (l : List Char) : List Char := stripAllTagsF l.length l

/-- Strip trailing characters of the class `[,.\s]+$`. -/
def isTrailPunct (c : Char) : Bool := c = ',' || c = '.' || isWs c

def dropTrailing (p : Char → Bool) (l : List Char) : List Char :=
  (l.reverse.dropWhile p).reverse

/-- The apostrophe character, used when decoding the HTML entity for it. -/
def aposChar : Char := Char.ofNat 39

def replaceStr (pat sub : String) (l : List Char) : List Char :=
  match pat.toList with
  | [] => l
  | p :: ps => replaceList p ps sub.toList l

/-- `stripHtml` from the source: remove script/style/nav/footer/header/
aside/iframe/noscript blocks, then all remaining tags, decode a fixed set
of HTML entities, collapse whitespace and trim. -/
def stripHtml (html : String) : String :=
  let t := html.toList
  let t := removeTagBlocks "script".toList t
  let t := removeTagBlocks "style".toList t
  let t := removeTagBlocks "nav".toList t
  let t := removeTagBlocks "footer".toList t
  let t := removeTagBlocks "header".toList t
  let t := removeTagBlocks "aside".toList t
  let t := removeTagBlocks "iframe".toList t
  let t := removeTagBlocks "noscript".toList t
  let t := stripAllTags t
  let t := replaceStr "&nbsp;" " " t
  let t := replaceStr "&amp;" "&" t
  let t := replaceStr "&lt;" "<" t
  let t := replaceStr "&gt;" ">" t
  let t := replaceStr "&quot;" "\"" t
  let t := replaceStr "&#39;" (String.mk [aposChar]) t
  let t := collapseWs t
  String.mk (trimList t)

/-- `generateSlug` from the source: lowercase, trim, drop characters
outside `[a-z0-9\s-]`, hyphenate whitespace runs, collapse hyphen runs,
strip one leading and one trailing hyphen, truncate to 80. -/
def isSlugKeepChar (c : Char) : Bool :=
  (('a' ≤ c && c ≤ 'z') : Bool) || (('0' ≤ c && c ≤ '9') : Bool) || isWs c || c = '-'

def isLowerAlnumDash (c : Char) : Bool :=
  (('a' ≤ c && c ≤ 'z') : Bool) || (('0' ≤ c && c ≤ '9') : Bool) || c = '-'

/-- `replace(/\s+/g, "-")`: every whitespace run becomes one hyphen. -/
def hyphenateWsAux : Bool → List Char → List Char
  | _, [] => []
  | prevWs, c :: rest =>
    if isWs c then
      if prevWs then hyphenateWsAux true rest
      else '-' :: hyphenateWsAux true rest
    else c :: hyphenateWsAux false rest

/-- `replace` of every hyphen run (regex dash-plus, global) with one hyphen. -/
def collapseDashAux : Bool → List Char → List Char
  | _, [] => []
  | prevDash, c :: rest =>
    if c = '-' then
      if prevDash then collapseDashAux true rest
      else '-' :: collapseDashAux true rest
    else c :: collapseDashAux false rest

/-- `replace(/^-|-$/g, "")`: remove one leading and one trailing hyphen. -/
def stripEdgeDash (l : List Char) : List Char :=
  let l1 := match l with
    | '-' :: rest => rest
    | _ => l
  match l1.reverse with
  | '-' :: rest => rest.reverse
  | _ => l1

def generateSlug (title : String) : String :=
  let t := title.toList.map Char.toLower
  let t := trimList t
  let t := t.filter isSlugKeepChar
  let t := hyphenateWsAux false t
  let t := collapseDashAux false t
  let t := stripEdgeDash t
  String.mk (t.take 80)

/-- The slug derivation that the route repeats inline for entities:
lowercase, trim, hyphenate whitespace runs, drop characters outside
`[a-z0-9-]`, collapse hyphen runs, strip one leading and one trailing hyphen. -/
def entitySlugOf (name : String) : String :=
  let t := name.toList.map Char.toLower
  let t := trimList t
  let t := hyphenateWsAux false t
  let t := t.filter isLowerAlnumDash
  let t := collapseDashAux false t
  let t := stripEdgeDash t
  String.mk t

/-- The alternatives of `CORPORATE_SUFFIXES =
`/\s+(Inc\.?|Corporation|Corp\.?|Ltd\.?|LLC|Plc|PLC)$/i`, lowercased.
Dotted variants come first so that an exact trailing match is found the
way the anchored regex finds it. -/
def corpSuffixes : List String :=
  ["inc.", "inc", "corporation", "corp.", "corp", "ltd.", "ltd", "llc", "plc"]

def endsWithCI (suf : List Char) (l : List Char) : Bool :=
  ((l.drop (l.length - suf.length)).map Char.toLower = suf : Bool) &&
    (suf.length ≤ l.length : Bool)

/-- `name.replace(CORPORATE_SUFFIXES, "")`: when the string ends with
whitespace followed by one of the suffix alternatives, remove the suffix
together with the whole whitespace run in front of it. -/
def stripCorporateSuffix (s : String) : String :=
  let l := s.toList
  match corpSuffixes.findSome? (fun suf =>
    let sl := suf.toList
    if endsWithCI sl l && (sl.length < l.length : Bool) then
      let pre := l.take (l.length - sl.length)
      match pre.reverse with
      | c :: _ => if isWs c then some (dropTrailing isWs pre) else none
      | [] => none
    else none) with
  | some pre => String.mk pre
  | none => s

/-- `normalizeEntityName` from the source: trim, lowercase then title-case
each `\b\w`, strip a trailing corporate suffix, strip trailing `[,.\s]+`,
collapse whitespace and trim. -/
def normalizeEntityName (raw : String) : String :=
  let s1 := trimList raw.toList
  let s2 := titleCaseAux false (s1.map Char.toLower)
  let s3 := stripCorporateSuffix (String.mk s2)
  let s4 := dropTrailing isTrailPunct s3.toList
  let s5 := trimList (collapseWs s4)
  String.mk s5

/-! ## Closed vocabularies from the route -/

def ALLOWED_ENTITY_TYPES : List String :=
  ["company", "model", "country", "lab", "regulator", "person",
   "institution", "event", "venue"]

def GENERIC_ENTITY_BLOCKLIST : List String :=
  ["ai", "artificial intelligence", "technology", "tech", "industry",
   "government", "company", "corporation", "startup", "platform",
   "system", "model", "research", "institute"]

def AI_CATEGORIES : List String := ["AI", "AI Governance", "AI Operations"]

def AI_KEYWORDS : List String :=
  ["ai", "artificial intelligence", "model", "research", "regulation"]

def EVENT_KEYWORDS : List String := ["ai", "summit", "expo", "conference"]

def INSTITUTION_KEYWORDS : List String :=
  ["university", "institute", "lab", "research"]

def REJECTED_PATTERNS : List String := ["party", "parties", "wing", "wings"]

def VENUE_ONLY_PATTERNS : List String :=
  ["arena", "stadium", "hall", "center", "centre", "convention center"]

def ALLOWED_PREDICATES : List String :=
  ["partnered_with", "acquired", "invested_in", "competes_with",
   "developed", "regulates", "funded_by", "subsidiary_of", "spun_off",
   "collaborated_with", "supplies_to", "licensed_from"]

def ALLOWED_EVENT_TYPES : List String :=
  ["release", "upgrade", "security", "regulation", "funding",
   "partnership", "leadership", "research", "infrastructure", "other"]

def EVENT_TYPE_KEYWORD_MAP : List (String × String) :=
  [("release", "release"), ("launch", "release"),
   ("upgrade", "upgrade"), ("update", "upgrade"),
   ("security", "security"), ("breach", "security"),
   ("regulation", "regulation"), ("policy", "regulation"),
   ("government", "regulation"),
   ("funding", "funding"), ("investment", "funding"),
   ("partnership", "partnership"), ("collaboration", "partnership"),
   ("leadership", "leadership"), ("ceo", "leadership"),
   ("research", "research"), ("paper", "research"),
   ("infrastructure", "infrastructure"), ("data center", "infrastructure")]

/-- `normalizeEventType` from the source: falsy input gives `"other"`;
an exact (lowercased, trimmed) vocabulary member passes through; else the
keyword map is consulted in order; else `"other"`. -/
def normalizeEventType (raw : Option String) : String :=
  match raw with
  | none => "other"
  | some r =>
    if r = "" then "other"
    else
      let lower := trimStr (lowerStr r)
      if ALLOWED_EVENT_TYPES.contains lower then lower
      else
        match EVENT_TYPE_KEYWORD_MAP.find? (fun kv => containsSubstr kv.1.toList lower.toList) with
        | some kv => kv.2
        | none => "other"

/-- The raw entity objects of the first extraction call. -/
structure RawEntity where
  name : String
  type : String
deriving DecidableEq

/-- `passesContextualFilter` from the source. -/
def passesContextualFilter (e : RawEntity) (articleCategory articleContent : String) : Bool :=
  let nameLower := lowerStr (trimStr e.name)
  if testWords REJECTED_PATTERNS nameLower then false
  else if (!(e.type = "venue" : Bool)) && testWords VENUE_ONLY_PATTERNS nameLower then false
  else if (e.type = "person" : Bool) &&
      (!(AI_CATEGORIES.contains articleCategory) || !(testWords AI_KEYWORDS articleContent)) then false
  else if (e.type = "event" : Bool) && !(testWords EVENT_KEYWORDS nameLower) then false
  else if (e.type = "institution" : Bool) && !(testWords INSTITUTION_KEYWORDS nameLower) then false
  else true

/-- `/^\d+$/.test(s)` on an already trimmed string. -/
def isAllDigits (s : String) : Bool :=
  (!(s = "" : Bool)) && s.toList.all Char.isDigit

/-! ## External-collaborator oracles and the request environment -/

/-- Outcome of `await request.json()` followed by the untyped `url` field
access: the body may fail to parse, may lack a string `url`, or carries
one (the empty string is falsy and is rejected by the same guard that
rejects a missing field). -/
inductive BodyParse
  | parseError
  | noUrl
  | url (u : String)
deriving DecidableEq

/-- Outcome of `fetch(url, ...)`: abort by the 10s timer, a transport
error carrying a message, or a response with status, status text,
`content-type` header (empty string when the header is absent) and body
text. -/
inductive FetchOutcome
  | abortError
  | transportError (msg : String)
  | response (status : Nat) (statusText : String) (contentType : String) (body : String)
deriving DecidableEq

/-- The raw timeline event object of the first extraction call;
`description` is read through `|| ""` by the route, so a missing field is
the empty string. -/
structure RawTimelineEvent where
  entity : String
  date : String
  title : String
  description : String
  event_type : Option String
deriving DecidableEq

/-- The parsed result object of the first extraction call. -/
structure AiResult where
  title : String
  content : String
  summary : String
  category : String
  entities : List RawEntity
  timeline_event : Option RawTimelineEvent
deriving DecidableEq

/-- Outcome of the first extraction call as the route observes it: the
request threw, the response text was falsy, `JSON.parse` threw, or a
parsed object came back.  (`JSON.parse` itself is the platform library;
what the route does with each of its outcomes is embedded.) -/
inductive AiCall
  | reqError (msg : String)
  | emptyResponse
  | parseFail
  | parsed (r : AiResult)
deriving DecidableEq

/-- One relationship triple of the second extraction call; `confidence`
is `none` when the field is not a number. -/
structure RelTriple where
  subject : String
  predicate : String
  object : String
  confidence : Option Rat
deriving DecidableEq

/-- Outcome of the second (relationship) extraction call: the request or
`JSON.parse` threw (both land in the same `catch`), the response text was
falsy (silently skipped), the parsed value was not an array, or an array
of triples came back. -/
inductive RelAi
  | fail (msg : String)
  | noText
  | notArray
  | arr (triples : List RelTriple)
deriving DecidableEq

/-- Per-request environment: credentials, parsed body, and the oracle
results of every external call the route can make.  `urlOk u` models
whether `new URL(u)` succeeds; `summaryAi` gives the summary call result
per entity name (`none` = the call threw or returned no usable text);
`now` is `new Date().toISOString()` and `today` its first ten characters;
`elapsedMs` is the `Date.now() - startTime` value at logging time. -/
structure ReqEnv where
  adminSecret : Option String
  cookie : Option String
  body : BodyParse
  urlOk : String → Bool
  fetch : FetchOutcome
  apiKey : Bool
  ai : AiCall
  relAi : RelAi
  summaryAi : String → Option String
  today : String
  now : String
  elapsedMs : Nat

/-- External calls the handler performs, for stating that rejected
requests trigger no fetch and no extraction. -/
inductive Eff
  | fetchCall (url : String)
  | aiCall
  | relAiCall
  | summaryCall (name : String)
deriving DecidableEq

/-- The JSON envelopes the route returns, one record with the optional
fields of every body shape (`entities` of the success body is omitted:
it echoes the raw extraction list unchanged). -/
structure Resp where
  status : Nat
  success : Bool
  error : Option String
  duplicate : Bool
  existing_id : Option Nat
  slug : Option String
  article_id : Option Nat
deriving DecidableEq

def errResp (status : Nat) (msg : String) : Resp :=
  ⟨status, false, some msg, false, none, none, none⟩

def dupResp (msg : String) (existingId : Nat) : Resp :=
  ⟨409, false, some msg, true, some existingId, none, none⟩

def okResp (slug : String) (articleId : Nat) : Resp :=
  ⟨200, true, none, false, none, some slug, some articleId⟩

/-! ## Persistence helpers from the route -/

/-- `checkAuth`: `!!adminSecret && adminAuth === adminSecret` (an empty
secret is falsy). -/
def checkAuth (env : ReqEnv) : Bool :=
  match env.adminSecret with
  | none => false
  | some s => (!(s = "" : Bool)) && (env.cookie = some s : Bool)

/-- `logIngestion`: append one audit row; the spread
`...(error_message ? { error_message } : {})` drops a falsy message. -/
def logIngestion (db : DB) (source_url status : String) (elapsed : Nat)
    (msg : Option String) : DB :=
  { db with logs := db.logs ++
      [⟨source_url, status,  elapsed,
        match msg with
        | some m => if m = "" then none else some m
        | none => none⟩] }

/-- `getUniqueSlug`: query slugs `LIKE base%`, return the base when free,
else the first free `base-k` for k = 2, 3, ...  The fuel is one more than
the number of matching rows, which always suffices. -/
def uniqueSlugLoop (existing : List String) (base : String) : Nat → Nat → String
  | 0, k => base ++ "-" ++ toString k
  | fuel + 1, k =>
    if existing.contains (base ++ "-" ++ toString k) then
      uniqueSlugLoop existing base fuel (k + 1)
    else base ++ "-" ++ toString k

def isPrefixList : List Char → List Char → Bool
  | [], _ => true
  | _ :: _, [] => false
  | a :: as, b :: bs => (a = b : Bool) && isPrefixList as bs

def getUniqueSlug (db : DB) (baseSlug : String) : String :=
  let data := db.articles.filter (fun a => isPrefixList baseSlug.toList a.slug.toList)
  if data.length = 0 then baseSlug
  else
    let existing := data.map (fun a => a.slug)
    if !(existing.contains baseSlug) then baseSlug
    else uniqueSlugLoop existing baseSlug (existing.length + 1) 2

/-- `insertTimelineWithClaim`: dedup on the exact
(entity, event_type, event_date, title) tuple, then insert the timeline
row and its paired claim (`claim_type = "timeline"`, revision 1,
`is_current = true`). -/
def insertTimelineWithClaim (db : DB) (entityId : Nat)
    (title description eventDate eventType sourceUrl : String)
    (confidence : Rat) : DB :=
  if db.timelines.any (fun t =>
      (t.entity = entityId : Bool) && (t.event_type = eventType : Bool) &&
      (t.event_date = eventDate : Bool) && (t.title = title : Bool)) then db
  else
    let row : TimelineRow :=
      ⟨db.nextId, entityId, title, description, eventDate, eventType, sourceUrl, confidence⟩
    let db1 := { db with timelines := db.timelines ++ [row], nextId := db.nextId + 1 }
    { db1 with
        claims := db1.claims ++
          [⟨db1.nextId, "timeline", entityId, none, none,
            some ⟨eventType, eventDate, title, description⟩,
            sourceUrl, confidence, 1, true, none⟩],
        nextId := db1.nextId + 1 }

/-! ## Entity resolution phase -/

/-- Accumulator of the entity loop: the evolving store, the first
company id seen, and the ids of the model entities in batch order. -/
structure EntAcc where
  db : DB
  firstCompanyId : Option Nat
  modelIds : List Nat

/-- Tail of one entity-loop iteration after the entity id is resolved:
track model/company ids and upsert the article link
(`onConflict: "article_id,entity_id"`). -/
def afterResolve (articleId : Nat) (acc : EntAcc) (e : RawEntity) (entityId : Nat) : EntAcc :=
  let modelIds := if e.type = "model" then acc.modelIds ++ [entityId] else acc.modelIds
  let firstCompanyId :=
    if (e.type = "company" : Bool) && (acc.firstCompanyId = none : Bool) then some entityId
    else acc.firstCompanyId
  let db :=
    if acc.db.article_entities.contains (articleId, entityId) then acc.db
    else { acc.db with article_entities := acc.db.article_entities ++ [(articleId, entityId)] }
  ⟨db, firstCompanyId, modelIds⟩

/-- One iteration of the entity loop: the guard chain, normalization,
slug lookup and insert-if-missing. -/
def processEntity (articleId : Nat) (category content : String)
    (acc : EntAcc) (e : RawEntity) : EntAcc :=
  if trimStr e.name = "" then acc
  else if !(ALLOWED_ENTITY_TYPES.contains e.type) then acc
  else if (trimStr e.name).length < 2 then acc
  else if isAllDigits (trimStr e.name) then acc
  else if GENERIC_ENTITY_BLOCKLIST.contains (lowerStr (trimStr e.name)) then acc
  else if !(passesContextualFilter e category content) then acc
  else
    let entityName := normalizeEntityName e.name
    if entityName = "" then acc
    else
      let entitySlug := entitySlugOf entityName
      match acc.db.entities.find? (fun ent => ent.slug = entitySlug) with
      | some ent => afterResolve articleId acc e ent.id
      | none =>
        let newEnt : Entity := ⟨acc.db.nextId, entityName, entitySlug, e.type, none, none⟩
        let db1 : DB := { acc.db with
          entities := acc.db.entities ++ [newEnt],
          nextId := acc.db.nextId + 1 }
        afterResolve articleId ⟨db1, acc.firstCompanyId, acc.modelIds⟩ e newEnt.id

/-- The post-loop parent linkage:
`update({parent_id}).in("id", modelEntityIds).is("parent_id", null)`,
guarded by `firstCompanyId && modelEntityIds.length > 0`. -/
def parentUpdate (firstCompanyId : Option Nat) (modelIds : List Nat) (db : DB) : DB :=
  match firstCompanyId with
  | none => db
  | some cid =>
    if modelIds.length > 0 then
      { db with entities := db.entities.map (fun e =>
          if modelIds.contains e.id && (e.parent_id = none : Bool) then
            { e with parent_id := some cid }
          else e) }
    else db

/-- The first-appearance pass over the model ids: when a model entity has
no timeline row at all, insert a synthetic event (note the hard-coded
`"first_appearance"` event type and confidence 0.7). -/
def firstAppearancePass (url today articleTitle : String) (db : DB) (modelIds : List Nat) : DB :=
  modelIds.foldl (fun d mid =>
    if d.timelines.any (fun t => (t.entity = mid : Bool)) then d
    else insertTimelineWithClaim d mid "First appearance in repository" articleTitle
           today "first_appearance" url (7 / 10)) db

/-- One iteration of the lazy summary-backfill loop: re-resolve the slug,
call the summary model when the stored summary is falsy, and persist a
returned text longer than 50 characters (the update is additionally
guarded by `is("summary", null)`). -/
def summaryStep (env : ReqEnv) (acc : DB × List Eff) (e : RawEntity) : DB × List Eff :=
  let d := acc.1
  let effs := acc.2
  let entityName := normalizeEntityName e.name
  if entityName = "" then acc
  else
    let entitySlug := entitySlugOf entityName
    match d.entities.find? (fun ent => ent.slug = entitySlug) with
    | none => acc
    | some ent =>
      if ent.summary = none ∨ ent.summary = some "" then
        match env.summaryAi entityName with
        | none => (d, effs ++ [Eff.summaryCall entityName])
        | some t =>
          if (trimStr t).length > 50 then
            ({ d with entities := d.entities.map (fun x =>
                 if (x.id = ent.id : Bool) && (x.summary = none : Bool) then
                   { x with summary := some (trimStr t) }
                 else x) },
             effs ++ [Eff.summaryCall entityName])
          else (d, effs ++ [Eff.summaryCall entityName])
      else acc

def summaryPass (env : ReqEnv) (ai : AiResult) (db : DB) : DB × List Eff :=
  ai.entities.foldl (summaryStep env) (db, [])

/-! ## Relationship / claim versioning phase -/

/-- The active relationships sharing (subject, predicate), any object. -/
def activeRelsFor (db : DB) (s : Nat) (p : String) : List Rel :=
  db.rels.filter (fun r =>
    (r.subject_id = s : Bool) && (r.predicate = p : Bool) && r.is_active)

/-- The current relationship claims for (subject, predicate). -/
def currentRelClaims (db : DB) (s : Nat) (p : String) : List ClaimRow :=
  db.claims.filter (fun c =>
    (c.claim_type = "relationship" : Bool) && (c.subject_id = s : Bool) &&
    (c.predicate = some p : Bool) && c.is_current)

/-- `let maxRevision = 0; for (c of oldClaims) if (c.revision > maxRevision) ...`. -/
def maxRevisionOf (cs : List ClaimRow) : Nat :=
  cs.foldl (fun m c => if c.revision > m then c.revision else m) 0

/-- `Math.min(1, Math.max(0, rel.confidence))`, default 0.7 for a
non-numeric field. -/
def clampConfidence : Option Rat → Rat
  | some c => min 1 (max 0 c)
  | none => 7 / 10

/-- Deactivate the active same-predicate rows: `is_active = false`,
`valid_to = today`, `updated_at = now`, keyed by id. -/
def deactivateRels (db : DB) (ids : List Nat) (today now : String) : DB :=
  { db with rels := db.rels.map (fun r =>
      if ids.contains r.id then
        { r with is_active := false, valid_to := some today, updated_at := now }
      else r) }

/-- Mark the listed claims non-current (`is_current = false`,
`updated_at = now`), keyed by id. -/
def retireClaims (db : DB) (ids : List Nat) (now : String) : DB :=
  { db with claims := db.claims.map (fun c =>
      if ids.contains c.id then { c with is_current := false, updated_at := some now }
      else c) }

/-- One iteration of the relationship loop (route lines 734-853): guards,
name resolution by slug, no-op on an identical active triple, supersession
of same-predicate actives, then insertion of the new relationship row and
its paired claim with revision `maxRevision + 1`. -/
def processTriple (url today now : String) (db : DB) (t : RelTriple) : DB :=
  if t.subject = "" ∨ t.predicate = "" ∨ t.object = "" then db
  else if !(ALLOWED_PREDICATES.contains t.predicate) then db
  else
    let subjectName := normalizeEntityName t.subject
    let objectName := normalizeEntityName t.object
    if subjectName = "" ∨ objectName = "" then db
    else
      let subjectSlug := entitySlugOf subjectName
      let objectSlug := entitySlugOf objectName
      match db.entities.find? (fun e => e.slug = subjectSlug),
            db.entities.find? (fun e => e.slug = objectSlug) with
      | some subjEnt, some objEnt =>
        let subjectId := subjEnt.id
        let objectId := objEnt.id
        let confidence := clampConfidence t.confidence
        if db.rels.any (fun r =>
            (r.subject_id = subjectId : Bool) && (r.object_id = objectId : Bool) &&
            (r.predicate = t.predicate : Bool) && r.is_active) then db
        else
          let samePredicateRows := activeRelsFor db subjectId t.predicate
          let step :=
            if samePredicateRows.length > 0 then
              let db1 := deactivateRels db (samePredicateRows.map (fun r => r.id)) today now
              let oldClaims := currentRelClaims db1 subjectId t.predicate
              let maxRev := maxRevisionOf oldClaims
              let db2 :=
                if oldClaims.length > 0 then
                  retireClaims db1 (oldClaims.map (fun c => c.id)) now
                else db1
              (db2, maxRev)
            else (db, 0)
          let db2 := step.1
          let maxRevision := step.2
          let newRel : Rel :=
            ⟨db2.nextId, subjectId, objectId, t.predicate, url, confidence,
             true, today, none, now⟩
          let db3 := { db2 with rels := db2.rels ++ [newRel], nextId := db2.nextId + 1 }
          { db3 with
              claims := db3.claims ++
                [⟨db3.nextId, "relationship", subjectId, some objectId, some t.predicate,
                  none, url, confidence, maxRevision + 1, true, none⟩],
              nextId := db3.nextId + 1 }
      | _, _ => db

/-- The whole relationship phase (route lines 695-860): runs only with at
least two extracted entities whose normalized names are nonempty; the
second extraction call is made, and on a parsed array each triple is
processed in order.  A thrown request/parse error is caught and skipped. -/
def relPhase (env : ReqEnv) (ai : AiResult) (url : String) (db : DB) : DB × List Eff :=
  if ai.entities.length ≥ 2 then
    let entityNames := (ai.entities.map (fun e => normalizeEntityName e.name)).filter
      (fun n => !(n = "" : Bool))
    if entityNames.length ≥ 2 then
      match env.relAi with
      | RelAi.fail _ => (db, [Eff.relAiCall])
      | RelAi.noText => (db, [Eff.relAiCall])
      | RelAi.notArray => (db, [Eff.relAiCall])
      | RelAi.arr ts => (ts.foldl (processTriple url env.today env.now) db, [Eff.relAiCall])
    else (db, [])
  else (db, [])

/-! ## Timeline phase -/

/-- Route lines 916-948: resolve the raw timeline entity name through the
inline slug transform (no `normalizeEntityName` here), then insert the
event with the normalized event type and confidence 0.85. -/
def timelinePhase (ai : AiResult) (url : String) (db : DB) : DB :=
  match ai.timeline_event with
  | none => db
  | some te =>
    if te.entity = "" then db
    else
      let eventType := normalizeEventType te.event_type
      let timelineEntitySlug := entitySlugOf te.entity
      match db.entities.find? (fun e => e.slug = timelineEntitySlug) with
      | none => db
      | some ent =>
        insertTimelineWithClaim db ent.id te.title te.description te.date
          eventType url (17 / 20)

/-! ## The POST handler, layered by pipeline stage -/

/-- The article row the route inserts (`status: "published"`,
`publish_at: new Date().toISOString()`, `source_url: url`). -/
def mkArticle (env : ReqEnv) (u : String) (ai : AiResult) (db : DB) : Article :=
  ⟨db.nextId, ai.title, ai.content, getUniqueSlug db (generateSlug ai.title),
   "published", env.now, some u⟩

/-- Route lines 495-623: the entity loop, the parent linkage and the model
first-appearance pass (run only when the extraction returned entities). -/
def entityPhase (env : ReqEnv) (u : String) (ai : AiResult) (articleId : Nat)
    (db : DB) : DB × Option Nat × List Nat :=
  let acc := ai.entities.foldl (processEntity articleId ai.category ai.content)
    ⟨db, none, []⟩
  let d := parentUpdate acc.firstCompanyId acc.modelIds acc.db
  (firstAppearancePass u env.today ai.title d acc.modelIds,
   acc.firstCompanyId, acc.modelIds)

/-- Route lines 390-957: article insert and all post-insert phases, ending
in the success log and success response.  In this store model row inserts
do not fail, so the `insert_error` exit is vacuous here. -/
def mainPipeline (env : ReqEnv) (u : String) (ai : AiResult) (db : DB)
    (effs : List Eff) : Resp × DB × List Eff :=
  let article := mkArticle env u ai db
  let db1 : DB := { db with articles := db.articles ++ [article], nextId := db.nextId + 1 }
  let entStep :=
    if ai.entities.length > 0 then entityPhase env u ai article.id db1
    else (db1, none, [])
  let db2 := entStep.1
  let sumStep :=
    if ai.entities.length > 0 then summaryPass env ai db2
    else (db2, [])
  let db3 := sumStep.1
  let relStep := relPhase env ai u db3
  let db4 := relStep.1
  let db5 := timelinePhase ai u db4
  let db6 := logIngestion db5 u "success" env.elapsedMs none
  (okResp article.slug article.id, db6, effs ++ sumStep.2 ++ relStep.2)

/-- Route lines 331-388: the API-key guard and the first extraction call
with its four observable outcomes. -/
def afterAiGate (env : ReqEnv) (u : String) (db : DB) : Resp × DB × List Eff :=
  let effs := [Eff.fetchCall u, Eff.aiCall]
  match env.ai with
  | AiCall.reqError msg =>
    (errResp 500 ("AI request failed: " ++ msg),
     logIngestion db u "ai_validation_error" env.elapsedMs (some msg), effs)
  | AiCall.emptyResponse =>
    (errResp 500 "Empty response from Anthropic.",
     logIngestion db u "ai_validation_error" env.elapsedMs
       (some "Empty response from Anthropic"), effs)
  | AiCall.parseFail =>
    (errResp 500 "Failed to parse AI response as JSON.",
     logIngestion db u "ai_validation_error" env.elapsedMs
       (some "Failed to parse AI response as JSON"), effs)
  | AiCall.parsed ai =>
    if ai.title = "" ∨ ai.content = "" then
      (errResp 500 "AI response missing required title or content.",
       logIngestion db u "ai_validation_error" env.elapsedMs
         (some "AI response missing required title or content"), effs)
    else mainPipeline env u ai db effs

/-- Route lines 317-321: `cleanedText = cleanedText.slice(0, 15000)` when
the sanitized text exceeds the bound. -/
def truncateContent (s : String) : String :=
  if s.length > 15000 then s.take 15000 else s

/-- Route lines 246-337: duplicate check, fetch, content-type and length
guards, API-key guard.  Every fatal exit appends one audit row first. -/
def afterValidation (env : ReqEnv) (u : String) (db : DB) : Resp × DB × List Eff :=
  match db.articles.find? (fun a => a.source_url = some u) with
  | some a =>
    (dupResp ("Already ingested: \"" ++ a.title ++ "\"") a.id,
     logIngestion db u "duplicate" env.elapsedMs none, [])
  | none =>
    match env.fetch with
    | FetchOutcome.abortError =>
      (errResp 408 "Request timed out.",
       logIngestion db u "fetch_error" env.elapsedMs (some "Request timed out after 10s"),
       [Eff.fetchCall u])
    | FetchOutcome.transportError msg =>
      (errResp 400 ("Failed to fetch URL: " ++ msg),
       logIngestion db u "fetch_error" env.elapsedMs (some msg), [Eff.fetchCall u])
    | FetchOutcome.response status statusText contentType bodyText =>
      if !((200 ≤ status && status ≤ 299 : Bool)) then
        let errMsg := "URL returned " ++ toString status ++ " " ++ statusText
        (errResp 400 errMsg,
         logIngestion db u "fetch_error" env.elapsedMs (some errMsg), [Eff.fetchCall u])
      else if !(containsStr "text/html" contentType) then
        (errResp 400 "Unsupported content type",
         logIngestion db u "fetch_error" env.elapsedMs
           (some ("Unsupported content type: " ++ contentType)), [Eff.fetchCall u])
      else
        let cleanedText := truncateContent (stripHtml bodyText)
        if cleanedText.length < 100 then
          (errResp 422 "Extracted text too short — possibly paywalled or empty page.",
           logIngestion db u "fetch_error" env.elapsedMs (some "Extracted text too short"),
           [Eff.fetchCall u])
        else if !env.apiKey then
          (errResp 500 "ANTHROPIC_API_KEY is not configured.",
           logIngestion db u "ai_validation_error" env.elapsedMs
             (some "ANTHROPIC_API_KEY not configured"), [Eff.fetchCall u])
        else afterAiGate env u db

/-- The POST handler (route lines 220-967): auth and input validation
reject before any store access, network fetch or extraction call; the
model has no spontaneous exceptions, so the final catch-all
(`internal_error`) is unreachable here. -/
def postIngest (env : ReqEnv) (db : DB) : Resp × DB × List Eff :=
  if !(checkAuth env) then (errResp 401 "Unauthorized.", db, [])
  else
    match env.body with
    | BodyParse.parseError => (errResp 400 "Invalid JSON body.", db, [])
    | BodyParse.noUrl => (errResp 400 "url is required.", db, [])
    | BodyParse.url u =>
      if u = "" then (errResp 400 "url is required.", db, [])
      else if !(env.urlOk u) then (errResp 400 "Invalid URL format.", db, [])
      else afterValidation env u db

/-- A sequence of sequential ingestion requests against one store. -/
def runIngestions (reqs : List ReqEnv) (db : DB) : DB :=
  reqs.foldl (fun d e => (postIngest e d).2.1) db

/-! ## Frame lemmas: which tables each phase leaves untouched -/

theorem foldl_preserves {α β γ : Type _} (f : β → α → β) (g : β → γ)
    (h : ∀ b a, g (f b a) = g b) :
    ∀ (l : List α) (b : β), g (l.foldl f b) = g b := by
  intro l
  induction l with
  | nil => intro b; rfl
  | cons a rest ih => intro b; rw [List.foldl_cons, ih, h]

theorem logIngestion_articles (db : DB) (u st : String) (e : Nat) (m : Option String) :
    (logIngestion db u st e m).articles = db.articles := rfl

theorem logIngestion_entities (db : DB) (u st : String) (e : Nat) (m : Option String) :
    (logIngestion db u st e m).entities = db.entities := rfl

theorem logIngestion_rels (db : DB) (u st : String) (e : Nat) (m : Option String) :
    (logIngestion db u st e m).rels = db.rels := rfl

theorem insertTimelineWithClaim_articles (db : DB) (i : Nat) (a b c d u : String) (q : Rat) :
    (insertTimelineWithClaim db i a b c d u q).articles = db.articles := by
  unfold insertTimelineWithClaim
  repeat' (first | split | dsimp only)
  all_goals rfl

theorem insertTimelineWithClaim_entities (db : DB) (i : Nat) (a b c d u : String) (q : Rat) :
    (insertTimelineWithClaim db i a b c d u q).entities = db.entities := by
  unfold insertTimelineWithClaim
  repeat' (first | split | dsimp only)
  all_goals rfl

theorem insertTimelineWithClaim_rels (db : DB) (i : Nat) (a b c d u : String) (q : Rat) :
    (insertTimelineWithClaim db i a b c d u q).rels = db.rels := by
  unfold insertTimelineWithClaim
  repeat' (first | split | dsimp only)
  all_goals rfl

theorem insertTimelineWithClaim_logs (db : DB) (i : Nat) (a b c d u : String) (q : Rat) :
    (insertTimelineWithClaim db i a b c d u q).logs = db.logs := by
  unfold insertTimelineWithClaim
  repeat' (first | split | dsimp only)
  all_goals rfl

theorem afterResolve_articles (aid : Nat) (acc : EntAcc) (e : RawEntity) (i : Nat) :
    (afterResolve aid acc e i).db.articles = acc.db.articles := by
  unfold afterResolve
  repeat' (first | split | dsimp only)
  all_goals rfl

theorem afterResolve_rels (aid : Nat) (acc : EntAcc) (e : RawEntity) (i : Nat) :
    (afterResolve aid acc e i).db.rels = acc.db.rels := by
  unfold afterResolve
  repeat' (first | split | dsimp only)
  all_goals rfl

theorem afterResolve_claims (aid : Nat) (acc : EntAcc) (e : RawEntity) (i : Nat) :
    (afterResolve aid acc e i).db.claims = acc.db.claims := by
  unfold afterResolve
  repeat' (first | split | dsimp only)
  all_goals rfl

theorem afterResolve_timelines (aid : Nat) (acc : EntAcc) (e : RawEntity) (i : Nat) :
    (afterResolve aid acc e i).db.timelines = acc.db.timelines := by
  unfold afterResolve
  repeat' (first | split | dsimp only)
  all_goals rfl

theorem afterResolve_logs (aid : Nat) (acc : EntAcc) (e : RawEntity) (i : Nat) :
    (afterResolve aid acc e i).db.logs = acc.db.logs := by
  unfold afterResolve
  repeat' (first | split | dsimp only)
  all_goals rfl

theorem processEntity_articles (aid : Nat) (cat cont : String) (acc : EntAcc) (e : RawEntity) :
    (processEntity aid cat cont acc e).db.articles = acc.db.articles := by
  unfold processEntity
  repeat' (first | split | dsimp only)
  all_goals simp [afterResolve_articles]

theorem processEntity_rels (aid : Nat) (cat cont : String) (acc : EntAcc) (e : RawEntity) :
    (processEntity aid cat cont acc e).db.rels = acc.db.rels := by
  unfold processEntity
  repeat' (first | split | dsimp only)
  all_goals simp [afterResolve_rels]

theorem processEntity_claims (aid : Nat) (cat cont : String) (acc : EntAcc) (e : RawEntity) :
    (processEntity aid cat cont acc e).db.claims = acc.db.claims := by
  unfold processEntity
  repeat' (first | split | dsimp only)
  all_goals simp [afterResolve_claims]

theorem processEntity_timelines (aid : Nat) (cat cont : String) (acc : EntAcc) (e : RawEntity) :
    (processEntity aid cat cont acc e).db.timelines = acc.db.timelines := by
  unfold processEntity
  repeat' (first | split | dsimp only)
  all_goals simp [afterResolve_timelines]

theorem processEntity_logs (aid : Nat) (cat cont : String) (acc : EntAcc) (e : RawEntity) :
    (processEntity aid cat cont acc e).db.logs = acc.db.logs := by
  unfold processEntity
  repeat' (first | split | dsimp only)
  all_goals simp [afterResolve_logs]

theorem parentUpdate_articles (fc : Option Nat) (ms : List Nat) (db : DB) :
    (parentUpdate fc ms db).articles = db.articles := by
  unfold parentUpdate
  repeat' (first | split | dsimp only)
  all_goals rfl

theorem parentUpdate_rels (fc : Option Nat) (ms : List Nat) (db : DB) :
    (parentUpdate fc ms db).rels = db.rels := by
  unfold parentUpdate
  repeat' (first | split | dsimp only)
  all_goals rfl

theorem parentUpdate_claims (fc : Option Nat) (ms : List Nat) (db : DB) :
    (parentUpdate fc ms db).claims = db.claims := by
  unfold parentUpdate
  repeat' (first | split | dsimp only)
  all_goals rfl

theorem parentUpdate_timelines (fc : Option Nat) (ms : List Nat) (db : DB) :
    (parentUpdate fc ms db).timelines = db.timelines := by
  unfold parentUpdate
  repeat' (first | split | dsimp only)
  all_goals rfl

theorem parentUpdate_logs (fc : Option Nat) (ms : List Nat) (db : DB) :
    (parentUpdate fc ms db).logs = db.logs := by
  unfold parentUpdate
  repeat' (first | split | dsimp only)
  all_goals rfl

theorem firstAppearancePass_articles (u td ti : String) (db : DB) (ms : List Nat) :
    (firstAppearancePass u td ti db ms).articles = db.articles := by
  unfold firstAppearancePass
  refine foldl_preserves _ DB.articles (fun b a => ?_) ms db
  split
  · rfl
  · exact insertTimelineWithClaim_articles ..

theorem firstAppearancePass_entities (u td ti : String) (db : DB) (ms : List Nat) :
    (firstAppearancePass u td ti db ms).entities = db.entities := by
  unfold firstAppearancePass
  refine foldl_preserves _ DB.entities (fun b a => ?_) ms db
  split
  · rfl
  · exact insertTimelineWithClaim_entities ..

theorem firstAppearancePass_rels (u td ti : String) (db : DB) (ms : List Nat) :
    (firstAppearancePass u td ti db ms).rels = db.rels := by
  unfold firstAppearancePass
  refine foldl_preserves _ DB.rels (fun b a => ?_) ms db
  split
  · rfl
  · exact insertTimelineWithClaim_rels ..

theorem firstAppearancePass_logs (u td ti : String) (db : DB) (ms : List Nat) :
    (firstAppearancePass u td ti db ms).logs = db.logs := by
  unfold firstAppearancePass
  refine foldl_preserves _ DB.logs (fun b a => ?_) ms db
  split
  · rfl
  · exact insertTimelineWithClaim_logs ..

theorem summaryStep_articles (env : ReqEnv) (acc : DB × List Eff) (e : RawEntity) :
    (summaryStep env acc e).1.articles = acc.1.articles := by
  unfold summaryStep
  repeat' (first | split | dsimp only)
  all_goals rfl

theorem summaryStep_rels (env : ReqEnv) (acc : DB × List Eff) (e : RawEntity) :
    (summaryStep env acc e).1.rels = acc.1.rels := by
  unfold summaryStep
  repeat' (first | split | dsimp only)
  all_goals rfl

theorem summaryStep_claims (env : ReqEnv) (acc : DB × List Eff) (e : RawEntity) :
    (summaryStep env acc e).1.claims = acc.1.claims := by
  unfold summaryStep
  repeat' (first | split | dsimp only)
  all_goals rfl

theorem summaryStep_timelines (env : ReqEnv) (acc : DB × List Eff) (e : RawEntity) :
    (summaryStep env acc e).1.timelines = acc.1.timelines := by
  unfold summaryStep
  repeat' (first | split | dsimp only)
  all_goals rfl

theorem summaryStep_logs (env : ReqEnv) (acc : DB × List Eff) (e : RawEntity) :
    (summaryStep env acc e).1.logs = acc.1.logs := by
  unfold summaryStep
  repeat' (first | split | dsimp only)
  all_goals rfl

theorem summaryPass_articles (env : ReqEnv) (ai : AiResult) (db : DB) :
    (summaryPass env ai db).1.articles = db.articles := by
  unfold summaryPass
  exact foldl_preserves _ (fun p => p.1.articles)
    (fun b a => summaryStep_articles env b a) ai.entities (db, [])

theorem summaryPass_rels (env : ReqEnv) (ai : AiResult) (db : DB) :
    (summaryPass env ai db).1.rels = db.rels := by
  unfold summaryPass
  exact foldl_preserves _ (fun p => p.1.rels)
    (fun b a => summaryStep_rels env b a) ai.entities (db, [])

theorem summaryPass_claims (env : ReqEnv) (ai : AiResult) (db : DB) :
    (summaryPass env ai db).1.claims = db.claims := by
  unfold summaryPass
  exact foldl_preserves _ (fun p => p.1.claims)
    (fun b a => summaryStep_claims env b a) ai.entities (db, [])

theorem summaryPass_timelines (env : ReqEnv) (ai : AiResult) (db : DB) :
    (summaryPass env ai db).1.timelines = db.timelines := by
  unfold summaryPass
  exact foldl_preserves _ (fun p => p.1.timelines)
    (fun b a => summaryStep_timelines env b a) ai.entities (db, [])

theorem summaryPass_logs (env : ReqEnv) (ai : AiResult) (db : DB) :
    (summaryPass env ai db).1.logs = db.logs := by
  unfold summaryPass
  exact foldl_preserves _ (fun p => p.1.logs)
    (fun b a => summaryStep_logs env b a) ai.entities (db, [])

theorem processTriple_articles (u td nw : String) (db : DB) (t : RelTriple) :
    (processTriple u td nw db t).articles = db.articles := by
  unfold processTriple deactivateRels retireClaims
  repeat' (first | split | dsimp only)
  all_goals rfl

theorem processTriple_entities (u td nw : String) (db : DB) (t : RelTriple) :
    (processTriple u td nw db t).entities = db.entities := by
  unfold processTriple deactivateRels retireClaims
  repeat' (first | split | dsimp only)
  all_goals rfl

theorem processTriple_timelines (u td nw : String) (db : DB) (t : RelTriple) :
    (processTriple u td nw db t).timelines = db.timelines := by
  unfold processTriple deactivateRels retireClaims
  repeat' (first | split | dsimp only)
  all_goals rfl

theorem processTriple_logs (u td nw : String) (db : DB) (t : RelTriple) :
    (processTriple u td nw db t).logs = db.logs := by
  unfold processTriple deactivateRels retireClaims
  repeat' (first | split | dsimp only)
  all_goals rfl

theorem relPhase_articles (env : ReqEnv) (ai : AiResult) (u : String) (db : DB) :
    (relPhase env ai u db).1.articles = db.articles := by
  unfold relPhase
  repeat' (first | split | dsimp only)
  all_goals
    first
      | rfl
      | exact foldl_preserves _ DB.articles
          (fun b a => processTriple_articles u env.today env.now b a) _ db

theorem relPhase_entities (env : ReqEnv) (ai : AiResult) (u : String) (db : DB) :
    (relPhase env ai u db).1.entities = db.entities := by
  unfold relPhase
  repeat' (first | split | dsimp only)
  all_goals
    first
      | rfl
      | exact foldl_preserves _ DB.entities
          (fun b a => processTriple_entities u env.today env.now b a) _ db

theorem relPhase_timelines (env : ReqEnv) (ai : AiResult) (u : String) (db : DB) :
    (relPhase env ai u db).1.timelines = db.timelines := by
  unfold relPhase
  repeat' (first | split | dsimp only)
  all_goals
    first
      | rfl
      | exact foldl_preserves _ DB.timelines
          (fun b a => processTriple_timelines u env.today env.now b a) _ db

theorem relPhase_logs (env : ReqEnv) (ai : AiResult) (u : String) (db : DB) :
    (relPhase env ai u db).1.logs = db.logs := by
  unfold relPhase
  repeat' (first | split | dsimp only)
  all_goals
    first
      | rfl
      | exact foldl_preserves _ DB.logs
          (fun b a => processTriple_logs u env.today env.now b a) _ db

theorem timelinePhase_articles (ai : AiResult) (u : String) (db : DB) :
    (timelinePhase ai u db).articles = db.articles := by
  unfold timelinePhase
  repeat' (first | split | dsimp only)
  all_goals first | rfl | apply insertTimelineWithClaim_articles

theorem timelinePhase_entities (ai : AiResult) (u : String) (db : DB) :
    (timelinePhase ai u db).entities = db.entities := by
  unfold timelinePhase
  repeat' (first | split | dsimp only)
  all_goals first | rfl | apply insertTimelineWithClaim_entities

theorem timelinePhase_rels (ai : AiResult) (u : String) (db : DB) :
    (timelinePhase ai u db).rels = db.rels := by
  unfold timelinePhase
  repeat' (first | split | dsimp only)
  all_goals first | rfl | apply insertTimelineWithClaim_rels

theorem timelinePhase_logs (ai : AiResult) (u : String) (db : DB) :
    (timelinePhase ai u db).logs = db.logs := by
  unfold timelinePhase
  repeat' (first | split | dsimp only)
  all_goals first | rfl | apply insertTimelineWithClaim_logs

/-! ## Membership helpers for inserted rows -/

theorem insertTimelineWithClaim_timelines_mem (db : DB) (i : Nat)
    (a b c d u : String) (q : Rat) (t : TimelineRow) :
    t ∈ (insertTimelineWithClaim db i a b c d u q).timelines →
    t ∈ db.timelines ∨ t.event_type = d := by
  unfold insertTimelineWithClaim
  repeat' (first | split | dsimp only)
  · exact fun h => Or.inl h
  · intro h
    simp only [List.mem_append, List.mem_singleton] at h
    rcases h with h | h
    · exact Or.inl h
    · subst h; exact Or.inr rfl

theorem foldl_timelines_mem {α : Type} (f : DB → α → DB) (P : TimelineRow → Prop)
    (h : ∀ d a t, t ∈ (f d a).timelines → t ∈ d.timelines ∨ P t) :
    ∀ (l : List α) (d : DB) (t : TimelineRow),
      t ∈ (l.foldl f d).timelines → t ∈ d.timelines ∨ P t := by
  intro l
  induction l with
  | nil => intro d t ht; exact Or.inl ht
  | cons a rest ih =>
    intro d t ht
    rw [List.foldl_cons] at ht
    rcases ih (f d a) t ht with h2 | h2
    · exact h d a t h2
    · exact Or.inr h2

/-! ## Claim C9 -/

/-- Claim C9: normalizing the two raw names "OpenAI Inc." and "openai"
(trim, title-case, strip trailing corporate suffixes, collapse whitespace)
and deriving the slug gives the same slug, so the slug lookup of the
entity-resolution phase returns the same record on every store. -/
theorem c9_entity_slug_stability :
    entitySlugOf (normalizeEntityName "OpenAI Inc.") =
      entitySlugOf (normalizeEntityName "openai") ∧
    entitySlugOf (normalizeEntityName "OpenAI Inc.") = "openai" ∧
    ∀ db : DB,
      db.entities.find? (fun ent =>
          ent.slug = entitySlugOf (normalizeEntityName "OpenAI Inc.")) =
        db.entities.find? (fun ent =>
          ent.slug = entitySlugOf (normalizeEntityName "openai")) := by
  refine ⟨by decide, by decide, ?_⟩
  intro db
  have h1 : entitySlugOf (normalizeEntityName "OpenAI Inc.") = "openai" := by decide
  have h2 : entitySlugOf (normalizeEntityName "openai") = "openai" := by decide
  simp only [h1, h2]

/-! ## Claim C4 -/

/-- The ingestion run that refutes C4 as stated: a fresh model entity with
no timeline rows receives the synthetic first-appearance event. -/
def envC4 : ReqEnv := {
  adminSecret := some "s", cookie := some "s",
  body := BodyParse.url "http://x.test/a",
  urlOk := fun _ => true,
  fetch := FetchOutcome.response 200 "OK" "text/html"
    (String.mk (List.replicate 100 'a')),
  apiKey := true,
  ai := AiCall.parsed ⟨"T", "article text", "sum", "AI",
    [⟨"Acmeco", "company"⟩, ⟨"Widgetron", "model"⟩], none⟩,
  relAi := RelAi.noText,
  summaryAi := fun _ => none,
  today := "2024-03-01", now := "2024-03-01T00:00:00Z", elapsedMs := 5 }

/-- Claim C4 as stated is false: the model first-appearance pass (route
lines 604-622) inserts a TimelineEvent whose event_type is the hard-coded
string "first_appearance", which is outside the closed 10-value
vocabulary. -/
theorem c4_counterexample :
    ∃ t ∈ (postIngest envC4 emptyDB).2.1.timelines,
      ¬ ALLOWED_EVENT_TYPES.contains t.event_type = true := by
  set_option maxRecDepth 10000 in decide

/-- Claim C4 (amended): every TimelineEvent inserted from the extractor's
timeline_event passes through normalizeEventType and therefore carries an
event_type from the closed 10-value vocabulary — exact (lowercased,
trimmed) matches pass through, otherwise the keyword map is consulted in
order, and unmatched values become "other" — while the rows inserted by
the model first-appearance pass instead carry the fixed out-of-vocabulary
event_type "first_appearance". -/
theorem c4_event_type_vocabulary :
    (∀ raw, ALLOWED_EVENT_TYPES.contains (normalizeEventType raw) = true) ∧
    (∀ (ai : AiResult) (u : String) (db : DB) (t : TimelineRow),
        t ∈ (timelinePhase ai u db).timelines →
        t ∈ db.timelines ∨ ALLOWED_EVENT_TYPES.contains t.event_type = true) ∧
    (∀ (u td ti : String) (db : DB) (ms : List Nat) (t : TimelineRow),
        t ∈ (firstAppearancePass u td ti db ms).timelines →
        t ∈ db.timelines ∨ t.event_type = "first_appearance") ∧
    (∀ s : String, ¬ s = "" →
        ALLOWED_EVENT_TYPES.contains (trimStr (lowerStr s)) = true →
        normalizeEventType (some s) = trimStr (lowerStr s)) := by
  have hvocab : ∀ raw, ALLOWED_EVENT_TYPES.contains (normalizeEventType raw) = true := by
    intro raw
    unfold normalizeEventType
    match raw with
    | none => decide
    | some r =>
      dsimp only
      split
      · decide
      · split
        · assumption
        · split
          · next kv hfind =>
            have hmem := List.mem_of_find?_eq_some hfind
            have hall : ∀ kv ∈ EVENT_TYPE_KEYWORD_MAP,
                ALLOWED_EVENT_TYPES.contains kv.2 = true := by decide
            exact hall kv hmem
          · decide
  refine ⟨hvocab, ?_, ?_, ?_⟩
  · intro ai u db t
    unfold timelinePhase
    repeat' (first | split | dsimp only)
    all_goals intro ht
    all_goals try exact Or.inl ht
    all_goals rcases insertTimelineWithClaim_timelines_mem _ _ _ _ _ _ _ _ _ ht with h | h
    · exact Or.inl h
    · rw [h]; exact Or.inr (hvocab _)
  · intro u td ti db ms t ht
    unfold firstAppearancePass at ht
    refine foldl_timelines_mem _ (fun t2 => t2.event_type = "first_appearance")
      (fun d a t2 ht2 => ?_) ms db t ht
    split at ht2
    · exact Or.inl ht2
    · exact insertTimelineWithClaim_timelines_mem _ _ _ _ _ _ _ _ _ ht2
  · intro s hne hmem
    simp [normalizeEventType, hne, hmem]
    intro hno
    exact absurd (by simpa using hmem) hno

/-- Witness for the amended C4 at concrete inputs. -/
theorem c4_event_type_vocabulary_witness :
    normalizeEventType (some "Release") = trimStr (lowerStr "Release") ∧
    ALLOWED_EVENT_TYPES.contains (normalizeEventType (some "launch day")) = true :=
  ⟨c4_event_type_vocabulary.2.2.2 "Release" (by decide) (by decide),
   c4_event_type_vocabulary.1 (some "launch day")⟩

/-! ## Reduction lemmas for the validated handler -/

theorem postIngest_validated (env : ReqEnv) (db : DB) (u : String)
    (h1 : checkAuth env = true) (h2 : env.body = BodyParse.url u)
    (h3 : ¬ u = "") (h4 : env.urlOk u = true) :
    postIngest env db = afterValidation env u db := by
  simp [postIngest, h1, h2, h3, h4]

theorem strAppend_ne_empty (a b : String) (ha : ¬ a = "") : ¬ (a ++ b) = "" := by
  intro h
  apply ha
  have hdata := congrArg String.data h
  rw [String.data_append] at hdata
  rcases List.append_eq_nil.mp hdata with ⟨h1, _⟩
  exact String.ext h1

theorem entityFold_articles (aid : Nat) (cat cont : String) (l : List RawEntity) (acc : EntAcc) :
    (l.foldl (processEntity aid cat cont) acc).db.articles = acc.db.articles :=
  foldl_preserves _ (fun a => a.db.articles)
    (fun b a => processEntity_articles aid cat cont b a) l acc

theorem entityFold_rels (aid : Nat) (cat cont : String) (l : List RawEntity) (acc : EntAcc) :
    (l.foldl (processEntity aid cat cont) acc).db.rels = acc.db.rels :=
  foldl_preserves _ (fun a => a.db.rels)
    (fun b a => processEntity_rels aid cat cont b a) l acc

theorem entityFold_claims (aid : Nat) (cat cont : String) (l : List RawEntity) (acc : EntAcc) :
    (l.foldl (processEntity aid cat cont) acc).db.claims = acc.db.claims :=
  foldl_preserves _ (fun a => a.db.claims)
    (fun b a => processEntity_claims aid cat cont b a) l acc

theorem entityFold_timelines (aid : Nat) (cat cont : String) (l : List RawEntity) (acc : EntAcc) :
    (l.foldl (processEntity aid cat cont) acc).db.timelines = acc.db.timelines :=
  foldl_preserves _ (fun a => a.db.timelines)
    (fun b a => processEntity_timelines aid cat cont b a) l acc

theorem entityFold_logs (aid : Nat) (cat cont : String) (l : List RawEntity) (acc : EntAcc) :
    (l.foldl (processEntity aid cat cont) acc).db.logs = acc.db.logs :=
  foldl_preserves _ (fun a => a.db.logs)
    (fun b a => processEntity_logs aid cat cont b a) l acc

theorem entityPhase_articles (env : ReqEnv) (u : String) (ai : AiResult)
    (aid : Nat) (db : DB) :
    (entityPhase env u ai aid db).1.articles = db.articles := by
  unfold entityPhase
  dsimp only
  rw [firstAppearancePass_articles, parentUpdate_articles, entityFold_articles]

theorem entityPhase_rels (env : ReqEnv) (u : String) (ai : AiResult)
    (aid : Nat) (db : DB) :
    (entityPhase env u ai aid db).1.rels = db.rels := by
  unfold entityPhase
  dsimp only
  rw [firstAppearancePass_rels, parentUpdate_rels, entityFold_rels]

theorem entityPhase_logs (env : ReqEnv) (u : String) (ai : AiResult)
    (aid : Nat) (db : DB) :
    (entityPhase env u ai aid db).1.logs = db.logs := by
  unfold entityPhase
  dsimp only
  rw [firstAppearancePass_logs, parentUpdate_logs, entityFold_logs]

/-- The success path appends exactly the one "success" audit row. -/
theorem mainPipeline_logs (env : ReqEnv) (u : String) (ai : AiResult) (db : DB)
    (effs : List Eff) :
    (mainPipeline env u ai db effs).2.1.logs =
      db.logs ++ [⟨u, "success", env.elapsedMs, none⟩] := by
  unfold mainPipeline
  repeat' (first | split | dsimp only)
  all_goals
    simp [logIngestion, timelinePhase_logs, relPhase_logs, summaryPass_logs,
      entityPhase_logs]

/-- The success path appends exactly the one new article row. -/
theorem mainPipeline_articles (env : ReqEnv) (u : String) (ai : AiResult) (db : DB)
    (effs : List Eff) :
    (mainPipeline env u ai db effs).2.1.articles =
      db.articles ++ [mkArticle env u ai db] := by
  unfold mainPipeline
  repeat' (first | split | dsimp only)
  all_goals
    simp [logIngestion, timelinePhase_articles, relPhase_articles, summaryPass_articles,
      entityPhase_articles]

/-- The success response of the pipeline tail. -/
theorem mainPipeline_resp (env : ReqEnv) (u : String) (ai : AiResult) (db : DB)
    (effs : List Eff) :
    (mainPipeline env u ai db effs).1 =
      okResp (getUniqueSlug db (generateSlug ai.title)) db.nextId := rfl

/-! ## Claim C7 -/

/-- Claim C7: when the sanitized text of a fetched page is shorter than
100 characters, the handler returns 422 with success=false, writes one
IngestionLog row with status fetch_error and the cause, and creates no
Article row. -/
theorem c7_short_content (env : ReqEnv) (db : DB) (u : String)
    (st : Nat) (stx ct bd : String)
    (hauth : checkAuth env = true)
    (hbody : env.body = BodyParse.url u)
    (hu : ¬ u = "")
    (hurl : env.urlOk u = true)
    (hnodup : ∀ a ∈ db.articles, ¬ a.source_url = some u)
    (hfetch : env.fetch = FetchOutcome.response st stx ct bd)
    (hok : (200 ≤ st && st ≤ 299) = true)
    (hct : containsStr "text/html" ct = true)
    (hshort : (stripHtml bd).length < 100) :
    (postIngest env db).1 =
      errResp 422 "Extracted text too short — possibly paywalled or empty page." ∧
    (postIngest env db).2.1.articles = db.articles ∧
    (postIngest env db).2.1.logs =
      db.logs ++ [⟨u, "fetch_error", env.elapsedMs, some "Extracted text too short"⟩] := by
  have hfind : db.articles.find? (fun a => a.source_url = some u) = none :=
    List.find?_eq_none.mpr (by intro a ha; simpa using hnodup a ha)
  have hlen : ¬ (stripHtml bd).length > 15000 := by omega
  rw [postIngest_validated env db u hauth hbody hu hurl]
  refine ⟨?_, ?_, ?_⟩ <;>
    simp [afterValidation, truncateContent, hfind, hfetch, hok, hct, hlen, hshort,
      logIngestion]

/-- Witness for C7: a concrete request whose page text has 4 characters. -/
def envC7 : ReqEnv := {
  adminSecret := some "s", cookie := some "s",
  body := BodyParse.url "http://x.test/short",
  urlOk := fun _ => true,
  fetch := FetchOutcome.response 200 "OK" "text/html; charset=utf-8" "<p>tiny</p>",
  apiKey := true,
  ai := AiCall.parsed ⟨"T", "c", "s", "AI", [], none⟩,
  relAi := RelAi.noText,
  summaryAi := fun _ => none,
  today := "2024-03-01", now := "2024-03-01T00:00:00Z", elapsedMs := 7 }

theorem c7_short_content_witness :
    (postIngest envC7 emptyDB).1 =
      errResp 422 "Extracted text too short — possibly paywalled or empty page." ∧
    (postIngest envC7 emptyDB).2.1.articles = emptyDB.articles ∧
    (postIngest envC7 emptyDB).2.1.logs =
      emptyDB.logs ++
        [⟨"http://x.test/short", "fetch_error", 7, some "Extracted text too short"⟩] :=
  c7_short_content envC7 emptyDB "http://x.test/short" 200 "OK"
    "text/html; charset=utf-8" "<p>tiny</p>" (by decide) rfl (by decide) rfl
    (by intro a ha; simp [emptyDB] at ha) rfl (by decide) (by decide) (by decide)

/-! ## Claim C10 -/

/-- Claim C10: a request failing the admin check or input validation is
rejected with 401 or 400 before any persistence write, any network fetch
and any extraction call: the store is returned unchanged and the effect
trace is empty. -/
theorem c10_reject_before_side_effects (env : ReqEnv) (db : DB)
    (h : checkAuth env = false ∨ env.body = BodyParse.parseError ∨
         env.body = BodyParse.noUrl ∨ env.body = BodyParse.url "" ∨
         ∃ u, env.body = BodyParse.url u ∧ env.urlOk u = false) :
    (postIngest env db).2.1 = db ∧ (postIngest env db).2.2 = [] ∧
    ((postIngest env db).1.status = 401 ∨ (postIngest env db).1.status = 400) ∧
    (postIngest env db).1.success = false := by
  by_cases ha : checkAuth env = true
  · rcases h with h | h | h | h | ⟨u, hb, hurl⟩
    · rw [h] at ha; cases ha
    · refine ⟨?_, ?_, ?_, ?_⟩ <;> simp [postIngest, ha, h, errResp]
    · refine ⟨?_, ?_, ?_, ?_⟩ <;> simp [postIngest, ha, h, errResp]
    · refine ⟨?_, ?_, ?_, ?_⟩ <;> simp [postIngest, ha, h, errResp]
    · by_cases hu : u = ""
      · subst hu
        refine ⟨?_, ?_, ?_, ?_⟩ <;> simp [postIngest, ha, hb, errResp]
      · refine ⟨?_, ?_, ?_, ?_⟩ <;> simp [postIngest, ha, hb, hu, hurl, errResp]
  · have ha2 : checkAuth env = false := by
      cases hc : checkAuth env
      · rfl
      · exact absurd hc ha
    refine ⟨?_, ?_, ?_, ?_⟩ <;> simp [postIngest, ha2, errResp]

/-- Witness for C10: a concrete unauthorized request. -/
def envC10 : ReqEnv := {
  adminSecret := some "secret", cookie := some "wrong",
  body := BodyParse.url "http://x.test/a",
  urlOk := fun _ => true,
  fetch := FetchOutcome.abortError,
  apiKey := true,
  ai := AiCall.parseFail,
  relAi := RelAi.noText,
  summaryAi := fun _ => none,
  today := "2024-03-01", now := "2024-03-01T00:00:00Z", elapsedMs := 3 }

theorem c10_reject_before_side_effects_witness :
    (postIngest envC10 emptyDB).2.1 = emptyDB ∧ (postIngest envC10 emptyDB).2.2 = [] ∧
    ((postIngest envC10 emptyDB).1.status = 401 ∨
      (postIngest envC10 emptyDB).1.status = 400) ∧
    (postIngest envC10 emptyDB).1.success = false :=
  c10_reject_before_side_effects envC10 emptyDB (Or.inl (by decide))

/-! ## Claim C6 -/

/-- A request whose upstream fetch answers 500. -/
def envC6 : ReqEnv := {
  adminSecret := some "s", cookie := some "s",
  body := BodyParse.url "http://x.test/bad",
  urlOk := fun _ => true,
  fetch := FetchOutcome.response 500 "Internal Server Error" "text/html" "",
  apiKey := true,
  ai := AiCall.parsed ⟨"T", "c", "s", "AI", [], none⟩,
  relAi := RelAi.noText,
  summaryAi := fun _ => none,
  today := "2024-03-01", now := "2024-03-01T00:00:00Z", elapsedMs := 4 }

/-- Claim C6 as stated is false: on a non-2xx upstream response the route
answers HTTP 400 (route line 303), not the 502 of the documented
status-code mapping; the body does carry the upstream status. -/
theorem c6_counterexample :
    (postIngest envC6 emptyDB).1.status = 400 ∧
    ¬ (postIngest envC6 emptyDB).1.status = 502 ∧
    (postIngest envC6 emptyDB).1.error = some "URL returned 500 Internal Server Error" ∧
    (postIngest envC6 emptyDB).1.success = false := by decide

/-- Claim C6 (amended): when the upstream HTTP GET returns a non-2xx
response, the endpoint responds with HTTP 400 — not the 502 the spec
documents — with a {success:false, error} body carrying the upstream
status, and logs one fetch_error row with the same cause. -/
theorem c6_upstream_failure_status (env : ReqEnv) (db : DB) (u : String)
    (st : Nat) (stx ct bd : String)
    (hauth : checkAuth env = true)
    (hbody : env.body = BodyParse.url u)
    (hu : ¬ u = "")
    (hurl : env.urlOk u = true)
    (hnodup : ∀ a ∈ db.articles, ¬ a.source_url = some u)
    (hfetch : env.fetch = FetchOutcome.response st stx ct bd)
    (hok : (200 ≤ st && st ≤ 299) = false) :
    (postIngest env db).1 =
      errResp 400 ("URL returned " ++ toString st ++ " " ++ stx) ∧
    (postIngest env db).2.1.logs =
      db.logs ++ [⟨u, "fetch_error", env.elapsedMs,
        some ("URL returned " ++ toString st ++ " " ++ stx)⟩] := by
  have hfind : db.articles.find? (fun a => a.source_url = some u) = none :=
    List.find?_eq_none.mpr (by intro a ha; simpa using hnodup a ha)
  have h1 : ¬ ("URL returned " ++ toString st = "") :=
    strAppend_ne_empty _ _ (by decide)
  have h2 : ¬ ("URL returned " ++ toString st ++ " " = "") :=
    strAppend_ne_empty _ _ h1
  have h3 : ¬ ("URL returned " ++ toString st ++ " " ++ stx = "") :=
    strAppend_ne_empty _ _ h2
  rw [postIngest_validated env db u hauth hbody hu hurl]
  constructor <;> simp [afterValidation, hfind, hfetch, hok, logIngestion, h3]

/-- Witness for the amended C6 at the concrete 500 response. -/
theorem c6_upstream_failure_status_witness :
    (postIngest envC6 emptyDB).1 =
      errResp 400 ("URL returned " ++ toString 500 ++ " " ++ "Internal Server Error") ∧
    (postIngest envC6 emptyDB).2.1.logs =
      emptyDB.logs ++ [⟨"http://x.test/bad", "fetch_error", 4,
        some ("URL returned " ++ toString 500 ++ " " ++ "Internal Server Error")⟩] :=
  c6_upstream_failure_status envC6 emptyDB "http://x.test/bad" 500
    "Internal Server Error" "text/html" "" (by decide) rfl (by decide) rfl
    (by intro a ha; simp [emptyDB] at ha) rfl (by decide)

/-! ## Claim C5 -/

/-- Claim C5 as stated is false: the unauthorized rejection is a terminal
outcome (HTTP 401) that writes no IngestionLog row — the route returns at
line 225 before any logging. -/
theorem c5_counterexample :
    (postIngest envC10 emptyDB).1.status = 401 ∧
    (postIngest envC10 emptyDB).2.1.logs = [] := by decide

/-- Claim C5 (amended): every request that passes the admin-credential
check and input validation reaches a terminal outcome that writes exactly
one IngestionLog row recording the request URL, the status and the elapsed
time, with a human-readable cause on every failure (assuming the messages
carried by transport and extraction-service errors are nonempty, as the
spread in logIngestion drops a falsy message); unauthorized and
invalid-input rejections return without writing any log row. -/
theorem c5_terminal_logging (env : ReqEnv) (db : DB) (u : String)
    (hauth : checkAuth env = true)
    (hbody : env.body = BodyParse.url u)
    (hu : ¬ u = "")
    (hurl : env.urlOk u = true)
    (hmsg1 : ∀ m, env.fetch = FetchOutcome.transportError m → ¬ m = "")
    (hmsg2 : ∀ m, env.ai = AiCall.reqError m → ¬ m = "") :
    ∃ l : LogRow,
      (postIngest env db).2.1.logs = db.logs ++ [l] ∧
      l.source_url = u ∧
      l.processing_time_ms = env.elapsedMs ∧
      (l.status = "success" ∨ l.status = "duplicate" ∨ ¬ l.error_message = none) := by
  rw [postIngest_validated env db u hauth hbody hu hurl]
  unfold afterValidation
  cases hfind : db.articles.find? (fun a => a.source_url = some u) with
  | some a =>
    exact ⟨⟨u, "duplicate", env.elapsedMs, none⟩, rfl, rfl, rfl, Or.inr (Or.inl rfl)⟩
  | none =>
    dsimp only
    cases hf : env.fetch with
    | abortError =>
      exact ⟨⟨u, "fetch_error", env.elapsedMs, some "Request timed out after 10s"⟩,
        rfl, rfl, rfl, Or.inr (Or.inr (by simp))⟩
    | transportError m =>
      refine ⟨⟨u, "fetch_error", env.elapsedMs, if m = "" then none else some m⟩,
        rfl, rfl, rfl, Or.inr (Or.inr ?_)⟩
      rw [if_neg (hmsg1 m hf)]
      simp
    | response st stx ct bd =>
      dsimp only
      cases hok : (200 ≤ st && st ≤ 299 : Bool) with
      | false =>
        simp only [Bool.not_true, Bool.not_false, Bool.false_eq_true, Bool.true_eq_false,
          eq_self_iff_true, if_true, if_false]
        have h1 : ¬ ("URL returned " ++ toString st = "") :=
          strAppend_ne_empty _ _ (by decide)
        have h2 : ¬ ("URL returned " ++ toString st ++ " " = "") :=
          strAppend_ne_empty _ _ h1
        have h3 : ¬ ("URL returned " ++ toString st ++ " " ++ stx = "") :=
          strAppend_ne_empty _ _ h2
        refine ⟨⟨u, "fetch_error", env.elapsedMs,
          if ("URL returned " ++ toString st ++ " " ++ stx) = "" then none
          else some ("URL returned " ++ toString st ++ " " ++ stx)⟩,
          rfl, rfl, rfl, Or.inr (Or.inr ?_)⟩
        rw [if_neg h3]
        simp
      | true =>
        simp only [Bool.not_true, Bool.not_false, Bool.false_eq_true, Bool.true_eq_false,
          eq_self_iff_true, if_true, if_false]
        cases hct : containsStr "text/html" ct with
        | false =>
          simp only [Bool.not_true, Bool.not_false, Bool.false_eq_true, Bool.true_eq_false,
            eq_self_iff_true, if_true, if_false]
          have hce : ¬ ("Unsupported content type: " ++ ct = "") :=
            strAppend_ne_empty _ _ (by decide)
          refine ⟨⟨u, "fetch_error", env.elapsedMs,
            if ("Unsupported content type: " ++ ct) = "" then none
            else some ("Unsupported content type: " ++ ct)⟩,
            rfl, rfl, rfl, Or.inr (Or.inr ?_)⟩
          rw [if_neg hce]
          simp
        | true =>
          simp only [Bool.not_true, Bool.not_false, Bool.false_eq_true, Bool.true_eq_false,
            eq_self_iff_true, if_true, if_false]
          split
          · exact ⟨⟨u, "fetch_error", env.elapsedMs, some "Extracted text too short"⟩,
              rfl, rfl, rfl, Or.inr (Or.inr (by simp))⟩
          · cases hkey : env.apiKey with
            | false =>
              simp only [Bool.not_true, Bool.not_false, Bool.false_eq_true,
                Bool.true_eq_false, eq_self_iff_true, if_true, if_false]
              exact ⟨⟨u, "ai_validation_error", env.elapsedMs,
                some "ANTHROPIC_API_KEY not configured"⟩,
                rfl, rfl, rfl, Or.inr (Or.inr (by simp))⟩
            | true =>
              simp only [Bool.not_true, Bool.not_false, Bool.false_eq_true,
                Bool.true_eq_false, eq_self_iff_true, if_true, if_false]
              unfold afterAiGate
              cases hai : env.ai with
              | reqError m =>
                refine ⟨⟨u, "ai_validation_error", env.elapsedMs,
                  if m = "" then none else some m⟩,
                  rfl, rfl, rfl, Or.inr (Or.inr ?_)⟩
                rw [if_neg (hmsg2 m hai)]
                simp
              | emptyResponse =>
                exact ⟨⟨u, "ai_validation_error", env.elapsedMs,
                  some "Empty response from Anthropic"⟩,
                  rfl, rfl, rfl, Or.inr (Or.inr (by simp))⟩
              | parseFail =>
                exact ⟨⟨u, "ai_validation_error", env.elapsedMs,
                  some "Failed to parse AI response as JSON"⟩,
                  rfl, rfl, rfl, Or.inr (Or.inr (by simp))⟩
              | parsed ai =>
                dsimp only
                split
                · exact ⟨⟨u, "ai_validation_error", env.elapsedMs,
                    some "AI response missing required title or content"⟩,
                    rfl, rfl, rfl, Or.inr (Or.inr (by simp))⟩
                · exact ⟨⟨u, "success", env.elapsedMs, none⟩,
                    mainPipeline_logs env u ai db _, rfl, rfl, Or.inl rfl⟩

/-- Witness for the amended C5: the duplicate outcome of a concrete
second ingestion of the same URL logs exactly one row. -/
def dbC5 : DB :=
  { emptyDB with
      articles := [⟨0, "T", "c", "t", "published", "2024-03-01T00:00:00Z",
        some "http://x.test/a"⟩],
      nextId := 1 }

theorem c5_terminal_logging_witness :
    ∃ l : LogRow,
      (postIngest envC4 dbC5).2.1.logs = dbC5.logs ++ [l] ∧
      l.source_url = "http://x.test/a" ∧
      l.processing_time_ms = 5 ∧
      (l.status = "success" ∨ l.status = "duplicate" ∨ ¬ l.error_message = none) :=
  c5_terminal_logging envC4 dbC5 "http://x.test/a" (by decide) rfl (by decide) rfl
    (by intro m hm; cases hm) (by intro m hm; cases hm)

/-! ## Claim C2 -/

/-- Claim C2: when a triple (subject, predicate, object) is processed and
an active relationship with the same subject and predicate but a different
object exists (in a store satisfying the at-most-one-active invariant),
the versioner deactivates every active same-(subject, predicate) row
(is_active=false, valid_to=today, updated_at=now), marks their current
relationship claims is_current=false with updated_at=now, and inserts a
new active relationship paired with a new current claim whose revision is
the maximum revision among the just-retired claims plus 1, defaulting to
1 when no prior current claim existed. -/
theorem c2_relationship_supersession (url today now : String) (db : DB) (t : RelTriple)
    (se oe : Entity)
    (hs : ¬ t.subject = "") (hp : ¬ t.predicate = "") (ho : ¬ t.object = "")
    (hpred : ALLOWED_PREDICATES.contains t.predicate = true)
    (hsn : ¬ normalizeEntityName t.subject = "")
    (hon : ¬ normalizeEntityName t.object = "")
    (hse : db.entities.find? (fun e =>
        e.slug = entitySlugOf (normalizeEntityName t.subject)) = some se)
    (hoe : db.entities.find? (fun e =>
        e.slug = entitySlugOf (normalizeEntityName t.object)) = some oe)
    (hinv : ∀ r1 ∈ db.rels, ∀ r2 ∈ db.rels,
        r1.subject_id = r2.subject_id → r1.predicate = r2.predicate →
        r1.is_active = true → r2.is_active = true → r1 = r2)
    (hex : ∃ r ∈ db.rels, r.subject_id = se.id ∧ r.predicate = t.predicate ∧
        r.is_active = true ∧ ¬ r.object_id = oe.id) :
    (∀ r ∈ db.rels, r.subject_id = se.id → r.predicate = t.predicate →
        r.is_active = true →
        { r with is_active := false, valid_to := some today, updated_at := now }
          ∈ (processTriple url today now db t).rels) ∧
    (∀ c ∈ db.claims, c.claim_type = "relationship" → c.subject_id = se.id →
        c.predicate = some t.predicate → c.is_current = true →
        { c with is_current := false, updated_at := some now }
          ∈ (processTriple url today now db t).claims) ∧
    (⟨db.nextId, se.id, oe.id, t.predicate, url, clampConfidence t.confidence,
        true, today, none, now⟩ : Rel) ∈ (processTriple url today now db t).rels ∧
    (⟨db.nextId + 1, "relationship", se.id, some oe.id, some t.predicate, none, url,
        clampConfidence t.confidence,
        maxRevisionOf (currentRelClaims db se.id t.predicate) + 1, true, none⟩ : ClaimRow)
      ∈ (processTriple url today now db t).claims ∧
    (currentRelClaims db se.id t.predicate = [] →
      (⟨db.nextId + 1, "relationship", se.id, some oe.id, some t.predicate, none, url,
        clampConfidence t.confidence, 1, true, none⟩ : ClaimRow)
        ∈ (processTriple url today now db t).claims) := by
  obtain ⟨r0, hr0, hs0, hp0, ha0, hno0⟩ := hex
  have hany : (db.rels.any fun r =>
      (r.subject_id = se.id : Bool) && (r.object_id = oe.id : Bool) &&
      (r.predicate = t.predicate : Bool) && r.is_active) = false := by
    rw [List.any_eq_false]
    intro r hr hcon
    simp only [Bool.and_eq_true, decide_eq_true_eq] at hcon
    obtain ⟨⟨⟨e1, e2⟩, e3⟩, e4⟩ := hcon
    have heq := hinv r hr r0 hr0 (by rw [e1, hs0]) (by rw [e3, hp0]) e4 ha0
    apply hno0
    rw [← heq, e2]
  have hmem0 : r0 ∈ activeRelsFor db se.id t.predicate := by
    unfold activeRelsFor
    rw [List.mem_filter]
    exact ⟨hr0, by simp [hs0, hp0, ha0]⟩
  have hlen : 0 < (activeRelsFor db se.id t.predicate).length :=
    List.length_pos.mpr (List.ne_nil_of_mem hmem0)
  unfold processTriple
  rw [if_neg (by simp [hs, hp, ho])]
  rw [if_neg (by simpa using hpred)]
  rw [if_neg (by simp [hsn, hon])]
  dsimp only
  rw [hse, hoe]
  dsimp only
  rw [if_neg (by simp [hany])]
  rw [if_pos hlen]
  dsimp only
  have hcc : currentRelClaims
      (deactivateRels db ((activeRelsFor db se.id t.predicate).map (fun r => r.id)) today now)
      se.id t.predicate = currentRelClaims db se.id t.predicate := rfl
  rw [hcc]
  have hrelsIte : (if (currentRelClaims db se.id t.predicate).length > 0 then
        retireClaims
          (deactivateRels db ((activeRelsFor db se.id t.predicate).map (fun r => r.id)) today now)
          ((currentRelClaims db se.id t.predicate).map (fun c => c.id)) now
      else
        deactivateRels db ((activeRelsFor db se.id t.predicate).map (fun r => r.id)) today now).rels =
      (deactivateRels db ((activeRelsFor db se.id t.predicate).map (fun r => r.id)) today now).rels := by
    split <;> rfl
  have hnextIte : (if (currentRelClaims db se.id t.predicate).length > 0 then
        retireClaims
          (deactivateRels db ((activeRelsFor db se.id t.predicate).map (fun r => r.id)) today now)
          ((currentRelClaims db se.id t.predicate).map (fun c => c.id)) now
      else
        deactivateRels db ((activeRelsFor db se.id t.predicate).map (fun r => r.id)) today now).nextId =
      db.nextId := by
    split <;> rfl
  rw [hrelsIte, hnextIte]
  refine ⟨?_, ?_, ?_, ?_, ?_⟩
  · intro r hr h1 h2 h3
    apply List.mem_append_left
    unfold deactivateRels
    dsimp only
    refine List.mem_map.mpr ⟨r, hr, ?_⟩
    have hidmem : r.id ∈ (activeRelsFor db se.id t.predicate).map (fun r => r.id) :=
      List.mem_map_of_mem _ (by
        unfold activeRelsFor
        rw [List.mem_filter]
        exact ⟨hr, by simp [h1, h2, h3]⟩)
    rw [if_pos (List.elem_eq_true_of_mem hidmem)]
  · intro c hc h1 h2 h3 h4
    have hcm : c ∈ currentRelClaims db se.id t.predicate := by
      unfold currentRelClaims
      rw [List.mem_filter]
      exact ⟨hc, by simp [h1, h2, h3, h4]⟩
    have hclen : (currentRelClaims db se.id t.predicate).length > 0 :=
      List.length_pos.mpr (List.ne_nil_of_mem hcm)
    rw [if_pos hclen]
    apply List.mem_append_left
    unfold retireClaims deactivateRels
    dsimp only
    refine List.mem_map.mpr ⟨c, hc, ?_⟩
    have hidmem : c.id ∈ (currentRelClaims db se.id t.predicate).map (fun c => c.id) :=
      List.mem_map_of_mem _ hcm
    rw [if_pos (List.elem_eq_true_of_mem hidmem)]
  · apply List.mem_append_right
    simp
  · apply List.mem_append_right
    simp
  · intro hempty
    rw [hempty]
    apply List.mem_append_right
    simp [maxRevisionOf]

/-- Witness store for C2: Acme funded_by Ventureco is active with a
current revision-1 claim; the incoming triple asserts funded_by Otherco. -/
def dbC2 : DB :=
  { emptyDB with
      entities :=
        [⟨0, "Acme", "acme", "company", none, none⟩,
         ⟨1, "Ventureco", "ventureco", "company", none, none⟩,
         ⟨2, "Otherco", "otherco", "company", none, none⟩],
      rels := [⟨3, 0, 1, "funded_by", "u0", 1, true, "2024-01-01", none,
        "2024-01-01T00:00:00Z"⟩],
      claims := [⟨4, "relationship", 0, some 1, some "funded_by", none, "u0",
        1, 1, true, none⟩],
      nextId := 5 }

def tC2 : RelTriple := ⟨"Acme", "funded_by", "OtherCo", some (1)⟩

theorem c2_relationship_supersession_witness :
    (⟨3, 0, 1, "funded_by", "u0", 1, false, "2024-01-01", some "2024-02-02",
        "2024-02-02T00:00:00Z"⟩ : Rel)
      ∈ (processTriple "u1" "2024-02-02" "2024-02-02T00:00:00Z" dbC2 tC2).rels ∧
    (⟨4, "relationship", 0, some 1, some "funded_by", none, "u0", 1, 1, false,
        some "2024-02-02T00:00:00Z"⟩ : ClaimRow)
      ∈ (processTriple "u1" "2024-02-02" "2024-02-02T00:00:00Z" dbC2 tC2).claims ∧
    (⟨5, 0, 2, "funded_by", "u1", 1, true, "2024-02-02", none,
        "2024-02-02T00:00:00Z"⟩ : Rel)
      ∈ (processTriple "u1" "2024-02-02" "2024-02-02T00:00:00Z" dbC2 tC2).rels ∧
    (⟨6, "relationship", 0, some 2, some "funded_by", none, "u1", 1, 2, true,
        none⟩ : ClaimRow)
      ∈ (processTriple "u1" "2024-02-02" "2024-02-02T00:00:00Z" dbC2 tC2).claims := by
  have h := c2_relationship_supersession "u1" "2024-02-02" "2024-02-02T00:00:00Z"
    dbC2 tC2 ⟨0, "Acme", "acme", "company", none, none⟩
    ⟨2, "Otherco", "otherco", "company", none, none⟩
    (by decide) (by decide) (by decide) (by decide) (by decide) (by decide)
    (by decide) (by decide) (by decide) (by decide)
  refine ⟨?_, ?_, h.2.2.1, h.2.2.2.1⟩
  · have h2 := h.1 ⟨3, 0, 1, "funded_by", "u0", 1, true, "2024-01-01", none,
      "2024-01-01T00:00:00Z"⟩ (by decide) rfl rfl rfl
    exact h2
  · have h3 := h.2.1 ⟨4, "relationship", 0, some 1, some "funded_by", none, "u0",
      1, 1, true, none⟩ (by decide) rfl rfl rfl rfl
    exact h3

/-! ## Claim C1 -/

/-- Lexicographic comparison of strings by character code; on ISO dates
this is chronological order. -/
def listLe : List Char → List Char → Bool
  | [], _ => true
  | _ :: _, [] => false
  | a :: as, b :: bs => if a = b then listLe as bs else decide (a < b)

def strLe (a b : String) : Bool := listLe a.toList b.toList

/-- At most one active relationship row per (subject_id, predicate): any
two active rows sharing subject and predicate are the same row. -/
def atMostOneActivePerPair (rels : List Rel) : Prop :=
  ∀ r1 ∈ rels, ∀ r2 ∈ rels,
    r1.subject_id = r2.subject_id → r1.predicate = r2.predicate →
    r1.is_active = true → r2.is_active = true → r1 = r2

/-- Every inactive row either was already in the base store or carries a
valid_to date bounded by T. -/
def deactivatedBounded (T : String) (base : List Rel) (rels : List Rel) : Prop :=
  ∀ r ∈ rels, r.is_active = false →
    r ∈ base ∨ ∃ d, r.valid_to = some d ∧ strLe d T = true

theorem deactivateRels_claims2 (db : DB) (ids : List Nat) (td nw : String) :
    (deactivateRels db ids td nw).claims = db.claims := rfl

theorem retireClaims_rels (db : DB) (ids : List Nat) (nw : String) :
    (retireClaims db ids nw).rels = db.rels := rfl

theorem deactivateRels_mem {db : DB} {ids : List Nat} {td nw : String} {r : Rel}
    (h : r ∈ (deactivateRels db ids td nw).rels) :
    ∃ x ∈ db.rels,
      r = (if ids.contains x.id then
        { x with is_active := false, valid_to := some td, updated_at := nw } else x) := by
  unfold deactivateRels at h
  dsimp only at h
  rcases List.mem_map.mp h with ⟨x, hx, hfx⟩
  exact ⟨x, hx, hfx.symm⟩

theorem supersede_atMostOne (db : DB) (s o : Nat) (p u td nw : String) (cf : Rat)
    (nid : Nat) (h1 : atMostOneActivePerPair db.rels) :
    atMostOneActivePerPair
      ((deactivateRels db ((activeRelsFor db s p).map (fun r => r.id)) td nw).rels ++
        [⟨nid, s, o, p, u, cf, true, td, none, nw⟩]) := by
  intro r1 hm1 r2 hm2 e1 e2 a1 a2
  have hactive_mem : ∀ x ∈ db.rels, x.subject_id = s → x.predicate = p →
      x.is_active = true →
      ((activeRelsFor db s p).map (fun r => r.id)).contains x.id = true := by
    intro x hx hxs hxp hxa
    apply List.elem_eq_true_of_mem
    apply List.mem_map_of_mem
    unfold activeRelsFor
    rw [List.mem_filter]
    exact ⟨hx, by simp [hxs, hxp, hxa]⟩
  have hres : ∀ r, r ∈ (deactivateRels db ((activeRelsFor db s p).map
      (fun r => r.id)) td nw).rels → r.is_active = true →
      r ∈ db.rels ∧ ¬ (r.subject_id = s ∧ r.predicate = p) := by
    intro r hr hra
    rcases deactivateRels_mem hr with ⟨x, hx, hfx⟩
    by_cases hc : ((activeRelsFor db s p).map (fun r => r.id)).contains x.id = true
    · rw [if_pos hc] at hfx
      rw [hfx] at hra
      simp at hra
    · rw [if_neg hc] at hfx
      rw [hfx]
      refine ⟨hx, ?_⟩
      rintro ⟨hxs, hxp⟩
      rw [hfx] at hra
      exact hc (hactive_mem x hx hxs hxp hra)
  rcases List.mem_append.mp hm1 with hm1a | hm1b
  · rcases List.mem_append.mp hm2 with hm2a | hm2b
    · obtain ⟨hx1, _⟩ := hres r1 hm1a a1
      obtain ⟨hx2, _⟩ := hres r2 hm2a a2
      exact h1 r1 hx1 r2 hx2 e1 e2 a1 a2
    · obtain ⟨_, hnot⟩ := hres r1 hm1a a1
      rw [List.mem_singleton] at hm2b
      exact absurd ⟨by rw [e1, hm2b], by rw [e2, hm2b]⟩ hnot
  · rcases List.mem_append.mp hm2 with hm2a | hm2b
    · obtain ⟨_, hnot⟩ := hres r2 hm2a a2
      rw [List.mem_singleton] at hm1b
      exact absurd ⟨by rw [← e1, hm1b], by rw [← e2, hm1b]⟩ hnot
    · rw [List.mem_singleton] at hm1b hm2b
      rw [hm1b, hm2b]

theorem supersede_bounded (T : String) (base : List Rel) (db : DB) (ids : List Nat)
    (td nw : String) (hT : strLe td T = true) (newRel : Rel) (hnew : newRel.is_active = true)
    (h2 : deactivatedBounded T base db.rels) :
    deactivatedBounded T base
      ((deactivateRels db ids td nw).rels ++ [newRel]) := by
  intro r hr hra
  rcases List.mem_append.mp hr with hra2 | hrb
  · rcases deactivateRels_mem hra2 with ⟨x, hx, hfx⟩
    by_cases hc : ids.contains x.id = true
    · rw [if_pos hc] at hfx
      rw [hfx]
      exact Or.inr ⟨td, rfl, hT⟩
    · rw [if_neg hc] at hfx
      rw [hfx]
      rw [hfx] at hra
      exact h2 x hx hra
  · rw [List.mem_singleton] at hrb
    rw [hrb] at hra
    rw [hnew] at hra
    cases hra

theorem append_active_atMostOne (db : DB) (s o : Nat) (p u td nw : String) (cf : Rat)
    (nid : Nat) (h1 : atMostOneActivePerPair db.rels)
    (hempty : ¬ 0 < (activeRelsFor db s p).length) :
    atMostOneActivePerPair (db.rels ++ [⟨nid, s, o, p, u, cf, true, td, none, nw⟩]) := by
  have hemp : activeRelsFor db s p = [] := by
    cases hx : activeRelsFor db s p with
    | nil => rfl
    | cons a l => rw [hx] at hempty; simp at hempty
  have hnoactive : ∀ x ∈ db.rels, x.subject_id = s → x.predicate = p →
      x.is_active = true → False := by
    intro x hx hxs hxp hxa
    have : x ∈ activeRelsFor db s p := by
      unfold activeRelsFor
      rw [List.mem_filter]
      exact ⟨hx, by simp [hxs, hxp, hxa]⟩
    rw [hemp] at this
    cases this
  intro r1 hm1 r2 hm2 e1 e2 a1 a2
  rcases List.mem_append.mp hm1 with hm1a | hm1b
  · rcases List.mem_append.mp hm2 with hm2a | hm2b
    · exact h1 r1 hm1a r2 hm2a e1 e2 a1 a2
    · rw [List.mem_singleton] at hm2b
      exact (hnoactive r1 hm1a (by rw [e1, hm2b]) (by rw [e2, hm2b]) a1).elim
  · rcases List.mem_append.mp hm2 with hm2a | hm2b
    · rw [List.mem_singleton] at hm1b
      exact (hnoactive r2 hm2a (by rw [← e1, hm1b]) (by rw [← e2, hm1b]) a2).elim
    · rw [List.mem_singleton] at hm1b hm2b
      rw [hm1b, hm2b]

theorem append_active_bounded (T : String) (base : List Rel) (db : DB)
    (newRel : Rel) (hnew : newRel.is_active = true)
    (h2 : deactivatedBounded T base db.rels) :
    deactivatedBounded T base (db.rels ++ [newRel]) := by
  intro r hr hra
  rcases List.mem_append.mp hr with hra2 | hrb
  · exact h2 r hra2 hra
  · rw [List.mem_singleton] at hrb
    rw [hrb, hnew] at hra
    cases hra

theorem processTriple_pres (T : String) (base : List Rel) (u td nw : String)
    (db : DB) (t : RelTriple) (hT : strLe td T = true)
    (h : atMostOneActivePerPair db.rels ∧ deactivatedBounded T base db.rels) :
    atMostOneActivePerPair (processTriple u td nw db t).rels ∧
    deactivatedBounded T base (processTriple u td nw db t).rels := by
  unfold processTriple
  repeat' (first | split | dsimp only)
  all_goals try exact h
  all_goals try simp only [retireClaims_rels]
  all_goals constructor
  all_goals
    first
    | exact supersede_atMostOne _ _ _ _ _ _ _ _ _ h.1
    | exact supersede_bounded T base _ _ td nw hT _ rfl h.2
    | exact append_active_atMostOne _ _ _ _ _ _ _ _ _ h.1 (by assumption)
    | exact append_active_bounded T base _ _ rfl h.2

theorem foldTriples_pres (T : String) (base : List Rel) (u td nw : String)
    (hT : strLe td T = true) :
    ∀ (ts : List RelTriple) (db : DB),
      atMostOneActivePerPair db.rels ∧ deactivatedBounded T base db.rels →
      atMostOneActivePerPair ((ts.foldl (processTriple u td nw) db)).rels ∧
      deactivatedBounded T base ((ts.foldl (processTriple u td nw) db)).rels := by
  intro ts
  induction ts with
  | nil => intro db h; exact h
  | cons a rest ih =>
    intro db h
    rw [List.foldl_cons]
    exact ih _ (processTriple_pres T base u td nw db a hT h)

theorem relPhase_pres (T : String) (base : List Rel) (env : ReqEnv) (ai : AiResult)
    (u : String) (db : DB) (hT : strLe env.today T = true)
    (h : atMostOneActivePerPair db.rels ∧ deactivatedBounded T base db.rels) :
    atMostOneActivePerPair (relPhase env ai u db).1.rels ∧
    deactivatedBounded T base (relPhase env ai u db).1.rels := by
  unfold relPhase
  repeat' (first | split | dsimp only)
  all_goals try exact h
  exact foldTriples_pres T base u env.today env.now hT _ db h

theorem mainPipeline_pres (T : String) (base : List Rel) (env : ReqEnv) (u : String)
    (ai : AiResult) (db : DB) (effs : List Eff) (hT : strLe env.today T = true)
    (h : atMostOneActivePerPair db.rels ∧ deactivatedBounded T base db.rels) :
    atMostOneActivePerPair (mainPipeline env u ai db effs).2.1.rels ∧
    deactivatedBounded T base (mainPipeline env u ai db effs).2.1.rels := by
  unfold mainPipeline
  repeat' (first | split | dsimp only)
  all_goals
    simp only [logIngestion_rels, timelinePhase_rels]
    apply relPhase_pres T base env ai u _ hT
    simp only [summaryPass_rels, entityPhase_rels]
    exact h

theorem postIngest_pres (T : String) (base : List Rel) (env : ReqEnv) (db : DB)
    (hT : strLe env.today T = true)
    (h : atMostOneActivePerPair db.rels ∧ deactivatedBounded T base db.rels) :
    atMostOneActivePerPair (postIngest env db).2.1.rels ∧
    deactivatedBounded T base (postIngest env db).2.1.rels := by
  unfold postIngest afterValidation afterAiGate
  repeat' (first | split | dsimp only)
  all_goals try exact h
  all_goals try simpa only [logIngestion_rels] using h
  all_goals exact mainPipeline_pres T base env _ _ db _ hT h

theorem runIngestions_pres (T : String) (base : List Rel) :
    ∀ (reqs : List ReqEnv) (db : DB),
      (∀ e ∈ reqs, strLe e.today T = true) →
      atMostOneActivePerPair db.rels ∧ deactivatedBounded T base db.rels →
      atMostOneActivePerPair (runIngestions reqs db).rels ∧
      deactivatedBounded T base (runIngestions reqs db).rels := by
  intro reqs
  induction reqs with
  | nil => intro db _ h; exact h
  | cons e rest ih =>
    intro db ht h
    exact ih (postIngest e db).2.1
      (fun x hx => ht x (List.mem_cons_of_mem _ hx))
      (postIngest_pres T base e db (ht e (List.mem_cons_self _ _)) h)

/-- Claim C1: after any sequence of sequential ingestion requests starting
from a store with no active relationship rows, at most one
EntityRelationship row per (subject_id, predicate) is active, and every
row deactivated during the run has valid_to set to a date no later than
the bound T dominating every request date (ISO date strings compare
lexicographically). -/
theorem c1_relationship_invariant (reqs : List ReqEnv) (db0 : DB) (T : String)
    (hstart : ∀ r ∈ db0.rels, r.is_active = false)
    (htimes : ∀ e ∈ reqs, strLe e.today T = true) :
    atMostOneActivePerPair (runIngestions reqs db0).rels ∧
    (∀ r ∈ (runIngestions reqs db0).rels, r.is_active = false →
      r ∉ db0.rels → ∃ d, r.valid_to = some d ∧ strLe d T = true) := by
  have h0 : atMostOneActivePerPair db0.rels ∧ deactivatedBounded T db0.rels db0.rels := by
    constructor
    · intro r1 hm1 r2 hm2 e1 e2 a1 a2
      rw [hstart r1 hm1] at a1
      cases a1
    · intro r hr _
      exact Or.inl hr
  have hres := runIngestions_pres T db0.rels reqs db0 htimes h0
  refine ⟨hres.1, ?_⟩
  intro r hr hra hnotin
  rcases hres.2 r hr hra with hin | hex
  · exact absurd hin hnotin
  · exact hex

def envC1 : ReqEnv := {
  adminSecret := some "s", cookie := some "s",
  body := BodyParse.url "http://x.test/rel",
  urlOk := fun _ => true,
  fetch := FetchOutcome.response 200 "OK" "text/html"
    (String.mk (List.replicate 100 'a')),
  apiKey := true,
  ai := AiCall.parsed ⟨"T", "article text", "sum", "AI",
    [⟨"Acmeco", "company"⟩, ⟨"Widgetco", "company"⟩], none⟩,
  relAi := RelAi.arr [⟨"Acmeco", "funded_by", "Widgetco", some 1⟩],
  summaryAi := fun _ => none,
  today := "2024-03-01", now := "2024-03-01T00:00:00Z", elapsedMs := 5 }

/-- Witness for C1: one concrete ingestion inserting one relationship. -/
theorem c1_relationship_invariant_witness :
    atMostOneActivePerPair (runIngestions [envC1] emptyDB).rels ∧
    (∀ r ∈ (runIngestions [envC1] emptyDB).rels, r.is_active = false →
      r ∉ emptyDB.rels → ∃ d, r.valid_to = some d ∧ strLe d "2025-01-01" = true) :=
  c1_relationship_invariant [envC1] emptyDB "2025-01-01" (by decide) (by decide)

/-! ## Claim C8 -/

theorem afterResolve_entities (aid : Nat) (acc : EntAcc) (e : RawEntity) (i : Nat) :
    (afterResolve aid acc e i).db.entities = acc.db.entities := by
  unfold afterResolve
  repeat' (first | split | dsimp only)
  all_goals rfl

/-- Entities are only appended by the entity loop. -/
theorem processEntity_entities_mono (aid : Nat) (cat cont : String) (acc : EntAcc)
    (e : RawEntity) :
    ∀ e0 ∈ acc.db.entities, e0 ∈ (processEntity aid cat cont acc e).db.entities := by
  intro e0 h0
  unfold processEntity
  repeat' (first | split | dsimp only)
  all_goals try rw [afterResolve_entities]
  all_goals try exact h0
  all_goals exact List.mem_append_left _ h0

theorem entityFold_entities_mono (aid : Nat) (cat cont : String) :
    ∀ (l : List RawEntity) (acc : EntAcc) (e0 : Entity), e0 ∈ acc.db.entities →
      e0 ∈ (l.foldl (processEntity aid cat cont) acc).db.entities := by
  intro l
  induction l with
  | nil => intro acc e0 h0; exact h0
  | cons a rest ih =>
    intro acc e0 h0
    rw [List.foldl_cons]
    exact ih _ e0 (processEntity_entities_mono aid cat cont acc a e0 h0)

/-- A non-null parent_id survives the parent-linkage update unchanged. -/
theorem parentUpdate_keeps_parent (fc : Option Nat) (ms : List Nat) (db : DB)
    (e : Entity) (p : Nat) (he : e ∈ db.entities) (hp : e.parent_id = some p) :
    ∃ e2 ∈ (parentUpdate fc ms db).entities, e2.id = e.id ∧ e2.parent_id = some p := by
  unfold parentUpdate
  cases fc with
  | none => exact ⟨e, he, rfl, hp⟩
  | some cid =>
    dsimp only
    split
    · refine ⟨if ms.contains e.id && (e.parent_id = none : Bool) then
          { e with parent_id := some cid } else e,
        List.mem_map_of_mem _ he, ?_, ?_⟩
      · split <;> rfl
      · rw [if_neg (by simp [hp])]
        exact hp
    · exact ⟨e, he, rfl, hp⟩

theorem summaryStep_keeps_parent (env : ReqEnv) (acc : DB × List Eff) (e : RawEntity)
    (e0 : Entity) (h0 : e0 ∈ acc.1.entities) :
    ∃ e2 ∈ (summaryStep env acc e).1.entities,
      e2.id = e0.id ∧ e2.parent_id = e0.parent_id := by
  unfold summaryStep
  repeat' (first | split | dsimp only)
  all_goals try exact ⟨e0, h0, rfl, rfl⟩
  all_goals refine ⟨_, List.mem_map_of_mem _ h0, ?_, ?_⟩ <;> (split <;> rfl)

theorem summaryPass_keeps_parent (env : ReqEnv) :
    ∀ (l : List RawEntity) (acc : DB × List Eff) (e0 : Entity),
      e0 ∈ acc.1.entities →
      ∃ e2 ∈ (l.foldl (summaryStep env) acc).1.entities,
        e2.id = e0.id ∧ e2.parent_id = e0.parent_id := by
  intro l
  induction l with
  | nil => intro acc e0 h0; exact ⟨e0, h0, rfl, rfl⟩
  | cons a rest ih =>
    intro acc e0 h0
    rw [List.foldl_cons]
    rcases summaryStep_keeps_parent env acc a e0 h0 with ⟨e1, h1, hid1, hp1⟩
    rcases ih (summaryStep env acc a) e1 h1 with ⟨e2, h2, hid2, hp2⟩
    exact ⟨e2, h2, by rw [hid2, hid1], by rw [hp2, hp1]⟩


theorem summaryPassDb_keeps_parent (env : ReqEnv) (ai : AiResult) (db : DB)
    (e0 : Entity) (h0 : e0 ∈ db.entities) :
    ∃ e2 ∈ (summaryPass env ai db).1.entities,
      e2.id = e0.id ∧ e2.parent_id = e0.parent_id :=
  summaryPass_keeps_parent env ai.entities (db, []) e0 h0

theorem entityPhase_keeps_parent (env : ReqEnv) (u : String) (ai : AiResult)
    (aid : Nat) (db : DB) (e : Entity) (p : Nat)
    (he : e ∈ db.entities) (hp : e.parent_id = some p) :
    ∃ e2 ∈ (entityPhase env u ai aid db).1.entities,
      e2.id = e.id ∧ e2.parent_id = some p := by
  unfold entityPhase
  dsimp only
  simp only [firstAppearancePass_entities]
  exact parentUpdate_keeps_parent _ _ _ e p
    (entityFold_entities_mono aid ai.category ai.content ai.entities ⟨db, none, []⟩ e he) hp

theorem mainPipeline_keeps_parent (env : ReqEnv) (u : String) (ai : AiResult)
    (db : DB) (effs : List Eff) (e : Entity) (p : Nat)
    (he : e ∈ db.entities) (hp : e.parent_id = some p) :
    ∃ e2 ∈ (mainPipeline env u ai db effs).2.1.entities,
      e2.id = e.id ∧ e2.parent_id = some p := by
  unfold mainPipeline
  repeat' (first | split | dsimp only)
  all_goals try contradiction
  all_goals simp only [logIngestion_entities, timelinePhase_entities, relPhase_entities]
  · rcases entityPhase_keeps_parent env u ai (mkArticle env u ai db).id { db with articles := db.articles ++ [mkArticle env u ai db], nextId := db.nextId + 1 } e p he hp with ⟨e2, h2, hid2, hp2⟩
    rcases summaryPassDb_keeps_parent env ai _ e2 h2 with ⟨e3, h3, hid3, hp3⟩
    exact ⟨e3, h3, by rw [hid3, hid2], by rw [hp3, hp2]⟩
  · exact ⟨e, he, rfl, hp⟩

theorem postIngest_keeps_parent (env : ReqEnv) (db : DB) (e : Entity) (p : Nat)
    (he : e ∈ db.entities) (hp : e.parent_id = some p) :
    ∃ e2 ∈ (postIngest env db).2.1.entities, e2.id = e.id ∧ e2.parent_id = some p := by
  unfold postIngest afterValidation afterAiGate
  repeat' (first | split | dsimp only)
  all_goals try exact ⟨e, he, rfl, hp⟩
  all_goals try exact ⟨e, by simpa only [logIngestion_entities] using he, rfl, hp⟩
  all_goals exact mainPipeline_keeps_parent env _ _ db _ e p he hp

/-- The batch rule itself: when a company was seen (the accumulator holds
its id) every model entity of the batch whose parent_id is still null is
linked to it by the update. -/
theorem entityBatch_assigns_parent (aid : Nat) (cat cont : String)
    (ents : List RawEntity) (db : DB) (cid : Nat) (e : Entity)
    (hfc : (ents.foldl (processEntity aid cat cont) ⟨db, none, []⟩).firstCompanyId = some cid)
    (he : e ∈ (ents.foldl (processEntity aid cat cont) ⟨db, none, []⟩).db.entities)
    (hm : e.id ∈ (ents.foldl (processEntity aid cat cont) ⟨db, none, []⟩).modelIds)
    (hp : e.parent_id = none) :
    { e with parent_id := some cid } ∈
      (parentUpdate (ents.foldl (processEntity aid cat cont) ⟨db, none, []⟩).firstCompanyId
        (ents.foldl (processEntity aid cat cont) ⟨db, none, []⟩).modelIds
        (ents.foldl (processEntity aid cat cont) ⟨db, none, []⟩).db).entities := by
  rw [hfc]
  unfold parentUpdate
  dsimp only
  rw [if_pos (List.length_pos.mpr (List.ne_nil_of_mem hm))]
  have hc1 : (ents.foldl (processEntity aid cat cont) ⟨db, none, []⟩).modelIds.contains e.id
      = true := List.elem_eq_true_of_mem hm
  have hcond : ((ents.foldl (processEntity aid cat cont) ⟨db, none, []⟩).modelIds.contains e.id
      && (e.parent_id = none : Bool)) = true := by
    rw [hc1, hp]
    rfl
  have : { e with parent_id := some cid } =
      (if (ents.foldl (processEntity aid cat cont) ⟨db, none, []⟩).modelIds.contains e.id
          && (e.parent_id = none : Bool) then { e with parent_id := some cid } else e) := by
    rw [if_pos hcond]
  rw [this]
  exact List.mem_map_of_mem _ he

/-- Claim C8: within one ingestion batch, a model entity whose parent_id
is null is linked to the first company id collected by the batch
accumulator, and a non-null parent_id is never overwritten by any part of
an ingestion run. -/
theorem c8_model_parent_first_company :
    (∀ (aid : Nat) (cat cont : String) (ents : List RawEntity) (db : DB) (cid : Nat)
        (e : Entity),
      (ents.foldl (processEntity aid cat cont) ⟨db, none, []⟩).firstCompanyId = some cid →
      e ∈ (ents.foldl (processEntity aid cat cont) ⟨db, none, []⟩).db.entities →
      e.id ∈ (ents.foldl (processEntity aid cat cont) ⟨db, none, []⟩).modelIds →
      e.parent_id = none →
      { e with parent_id := some cid } ∈
        (parentUpdate
          (ents.foldl (processEntity aid cat cont) ⟨db, none, []⟩).firstCompanyId
          (ents.foldl (processEntity aid cat cont) ⟨db, none, []⟩).modelIds
          (ents.foldl (processEntity aid cat cont) ⟨db, none, []⟩).db).entities) ∧
    (∀ (env : ReqEnv) (db : DB) (e : Entity) (p : Nat),
      e ∈ db.entities → e.parent_id = some p →
      ∃ e2 ∈ (postIngest env db).2.1.entities, e2.id = e.id ∧ e2.parent_id = some p) :=
  ⟨fun aid cat cont ents db cid e hfc he hm hp =>
      entityBatch_assigns_parent aid cat cont ents db cid e hfc he hm hp,
   fun env db e p he hp => postIngest_keeps_parent env db e p he hp⟩

def entsC8 : List RawEntity := [⟨"Acmeco", "company"⟩, ⟨"Widgetron", "model"⟩]

def accC8 : EntAcc := entsC8.foldl (processEntity 0 "AI" "article text") ⟨emptyDB, none, []⟩

def dbC8 : DB :=
  { emptyDB with entities := [⟨0, "Legacy", "legacy", "model", some 3, none⟩], nextId := 1 }

/-- Witness for C8: the concrete batch links the model to the first
company, and a pre-existing parent survives a full ingestion run. -/
theorem c8_model_parent_first_company_witness :
    (⟨1, "Widgetron", "widgetron", "model", some 0, none⟩ : Entity) ∈
      (parentUpdate accC8.firstCompanyId accC8.modelIds accC8.db).entities ∧
    ∃ e2 ∈ (postIngest envC1 dbC8).2.1.entities, e2.id = 0 ∧ e2.parent_id = some 3 :=
  ⟨c8_model_parent_first_company.1 0 "AI" "article text" entsC8 emptyDB 0
      ⟨1, "Widgetron", "widgetron", "model", none, none⟩
      (by decide) (by decide) (by decide) rfl,
   c8_model_parent_first_company.2 envC1 dbC8
      ⟨0, "Legacy", "legacy", "model", some 3, none⟩ 3 (by decide) rfl⟩

/-! ## Claim C3 -/

theorem find?_append_none {α : Type} (p : α → Bool) :
    ∀ (l1 l2 : List α), l1.find? p = none → (l1 ++ l2).find? p = l2.find? p := by
  intro l1
  induction l1 with
  | nil => intro l2 _; rfl
  | cons a rest ih =>
    intro l2 h
    rw [List.cons_append]
    rw [List.find?_cons] at h ⊢
    cases hp : p a with
    | true => rw [hp] at h; dsimp only at h; cases h
    | false =>
      rw [hp] at h
      dsimp only at h ⊢
      exact ih l2 h

theorem postIngest_success (env : ReqEnv) (db : DB) (u : String)
    (hb : env.body = BodyParse.url u)
    (hs : (postIngest env db).1.success = true) :
    (∀ a ∈ db.articles, ¬ a.source_url = some u) ∧
    ¬ u = "" ∧
    ∃ newA : Article,
      (postIngest env db).2.1.articles = db.articles ++ [newA] ∧
      newA.source_url = some u ∧ newA.id = db.nextId ∧
      (postIngest env db).1.article_id = some newA.id := by
  unfold postIngest at hs ⊢
  rw [hb] at hs ⊢
  cases hauth : checkAuth env with
  | false => rw [hauth] at hs; simp [errResp] at hs
  | true =>
    rw [hauth] at hs
    simp only [Bool.not_true, Bool.false_eq_true, if_false] at hs ⊢
    by_cases hu : u = ""
    · rw [if_pos hu] at hs; simp [errResp] at hs
    · rw [if_neg hu] at hs ⊢
      cases hurl : env.urlOk u with
      | false => rw [hurl] at hs; simp [errResp] at hs
      | true =>
        rw [hurl] at hs
        simp only [Bool.not_true, Bool.false_eq_true, if_false] at hs ⊢
        unfold afterValidation at hs ⊢
        cases hfind : db.articles.find? (fun a => a.source_url = some u) with
        | some a => rw [hfind] at hs; simp [dupResp] at hs
        | none =>
          rw [hfind] at hs
          dsimp only at hs ⊢
          have hnodup : ∀ a ∈ db.articles, ¬ a.source_url = some u := by
            intro a ha
            have := List.find?_eq_none.mp hfind a ha
            simpa using this
          cases hf : env.fetch with
          | abortError => rw [hf] at hs; simp [errResp] at hs
          | transportError m => rw [hf] at hs; simp [errResp] at hs
          | response st stx ct bd =>
            rw [hf] at hs
            dsimp only at hs ⊢
            cases hok : (200 ≤ st && st ≤ 299 : Bool) with
            | false => rw [hok] at hs; simp [errResp] at hs
            | true =>
              rw [hok] at hs
              simp only [Bool.not_true, Bool.false_eq_true, if_false] at hs ⊢
              cases hct : containsStr "text/html" ct with
              | false => rw [hct] at hs; simp [errResp] at hs
              | true =>
                rw [hct] at hs
                simp only [Bool.not_true, Bool.false_eq_true, if_false] at hs ⊢
                by_cases hlen : (truncateContent (stripHtml bd)).length < 100
                · rw [if_pos hlen] at hs; simp [errResp] at hs
                · rw [if_neg hlen] at hs ⊢
                  cases hkey : env.apiKey with
                  | false => rw [hkey] at hs; simp [errResp] at hs
                  | true =>
                    rw [hkey] at hs
                    simp only [Bool.not_true, Bool.false_eq_true, if_false] at hs ⊢
                    unfold afterAiGate at hs ⊢
                    cases hai : env.ai with
                    | reqError m => rw [hai] at hs; simp [errResp] at hs
                    | emptyResponse => rw [hai] at hs; simp [errResp] at hs
                    | parseFail => rw [hai] at hs; simp [errResp] at hs
                    | parsed ai =>
                      rw [hai] at hs
                      dsimp only at hs ⊢
                      by_cases hmiss : ai.title = "" ∨ ai.content = ""
                      · rw [if_pos hmiss] at hs; simp [errResp] at hs
                      · rw [if_neg hmiss] at hs ⊢
                        refine ⟨hnodup, hu, mkArticle env u ai db, ?_, rfl, rfl, ?_⟩
                        · exact mainPipeline_articles env u ai db _
                        · rw [mainPipeline_resp]
                          rfl

/-- Claim C3: ingesting a URL a second time after a successful first
ingestion creates no new Article row: the duplicate check finds the
existing article by source_url before any fetch or extraction call, and
the second request is answered with 409, success=false, duplicate=true
and the existing article id. -/
theorem c3_duplicate_url (env1 env2 : ReqEnv) (db : DB) (u : String)
    (hb1 : env1.body = BodyParse.url u)
    (hsucc : (postIngest env1 db).1.success = true)
    (hauth2 : checkAuth env2 = true)
    (hb2 : env2.body = BodyParse.url u)
    (hurl2 : env2.urlOk u = true) :
    (postIngest env2 (postIngest env1 db).2.1).1.status = 409 ∧
    (postIngest env2 (postIngest env1 db).2.1).1.success = false ∧
    (postIngest env2 (postIngest env1 db).2.1).1.duplicate = true ∧
    (∃ a ∈ (postIngest env1 db).2.1.articles, a.source_url = some u ∧
      (postIngest env2 (postIngest env1 db).2.1).1.existing_id = some a.id ∧
      (postIngest env1 db).1.article_id = some a.id) ∧
    (postIngest env2 (postIngest env1 db).2.1).2.1.articles =
      (postIngest env1 db).2.1.articles ∧
    (postIngest env2 (postIngest env1 db).2.1).2.2 = [] := by
  obtain ⟨hnodup, hne, newA, harts, hsrc, hid, haid⟩ :=
    postIngest_success env1 db u hb1 hsucc
  rw [postIngest_validated env2 _ u hauth2 hb2 hne hurl2]
  unfold afterValidation
  have hfind2 : (postIngest env1 db).2.1.articles.find?
      (fun a => a.source_url = some u) = some newA := by
    rw [harts]
    rw [find?_append_none _ db.articles [newA]
      (List.find?_eq_none.mpr (by intro a ha; simpa using hnodup a ha))]
    rw [List.find?_cons]
    rw [show (decide (newA.source_url = some u)) = true from by simp [hsrc]]
  rw [hfind2]
  dsimp only
  refine ⟨rfl, rfl, rfl, ⟨newA, ?_, hsrc, rfl, haid⟩, ?_, rfl⟩
  · rw [harts]
    exact List.mem_append_right _ (List.mem_singleton_self _)
  · exact logIngestion_articles ..

/-- Witness for C3: the same URL ingested twice on an empty database. -/
theorem c3_duplicate_url_witness :
    (postIngest envC1 (postIngest envC1 emptyDB).2.1).1.status = 409 ∧
    (postIngest envC1 (postIngest envC1 emptyDB).2.1).1.success = false ∧
    (postIngest envC1 (postIngest envC1 emptyDB).2.1).1.duplicate = true ∧
    (∃ a ∈ (postIngest envC1 emptyDB).2.1.articles,
      a.source_url = some "http://x.test/rel" ∧
      (postIngest envC1 (postIngest envC1 emptyDB).2.1).1.existing_id = some a.id ∧
      (postIngest envC1 emptyDB).1.article_id = some a.id) ∧
    (postIngest envC1 (postIngest envC1 emptyDB).2.1).2.1.articles =
      (postIngest envC1 emptyDB).2.1.articles ∧
    (postIngest envC1 (postIngest envC1 emptyDB).2.1).2.2 = [] :=
  c3_duplicate_url envC1 envC1 emptyDB "http://x.test/rel" rfl
    (by set_option maxRecDepth 10000 in decide) (by decide) rfl (by decide)

end Phenomeny
